import Mathlib

/-!
# The hive scheduler (`src/hive/scheduler.go`)

A shallow embedding of the scheduler of the job execution engine: the registry of
handlers, the table of workers, and the three methods `schedule`, `handle` and
`getHandler`, followed by the properties proved about them.

The scheduler is embedded twice:

* as sequential functions in the `Except Fault` monad (`schedule`, `handle`,
  `getHandler`), one Lean function per Go method, statement by statement;
* as a small-step machine (`stepThread`) in which every statement of `schedule`
  is one step of a logical thread, so that two calls can be interleaved.

Both thread an instrumented `State`: the scheduler value itself, the number of
workers allocated so far, and the trace of the statements executed.

What `scheduler.go` uses without defining it (results, jobs, configurations, workers)
and what only the tests exercise (waiting on a result, groups, the shared state store)
is modelled from the spec; each such definition says so.
-/

namespace Hive

/-! ## Go maps -/

/-- Read of key `k` in the entries of an allocated map. -/
def mapGet {V : Type} (k : String) : List (String × V) → Option V
  | [] => none
  | (k', v) :: m => if k' = k then some v else mapGet k m

/-- Assignment `m[k] = v` on the entries of an allocated map: the entry of `k` is
replaced when there is one, otherwise a new entry is added. -/
def mapSet {V : Type} (k : String) (v : V) : List (String × V) → List (String × V)
  | [] => [(k, v)]
  | (k', v') :: m => if k' = k then (k, v) :: m else (k', v') :: mapSet k v m

/-- The keys of an allocated map. -/
def mapKeys {V : Type} (m : List (String × V)) : List String := m.map Prod.fst

/-- A Go value of type `map[string]V`: `none` is the nil map, `some es` an allocated
map with entries `es`. -/
abbrev GoMap (V : Type) := Option (List (String × V))

/-- What can stop a call from returning normally. -/
inductive Fault where
  /-- Go run-time panic: assignment to entry in nil map. -/
  | nilMapWrite
  /-- The call waits for a mutex that nobody will release. -/
  | deadlock
  /-- Go run-time fatal error: unlock of unlocked mutex. -/
  | unlockOfUnlocked
  deriving DecidableEq, Repr

/-- The two-valued read `v, ok := m[k]`; a nil map has no entries. -/
def goLookup {V : Type} (m : GoMap V) (k : String) : Option V :=
  match m with
  | none => none
  | some es => mapGet k es

/-- The assignment `m[k] = v`; it panics on a nil map. -/
def goStore {V : Type} (m : GoMap V) (k : String) (v : V) : Except Fault (GoMap V) :=
  match m with
  | none => .error .nilMapWrite
  | some es => .ok (some (mapSet k v es))

/-! ## Errors, results, jobs -/

/-- A Go `error` value as built by `fmt.Errorf` and by `errors.Wrapf`. -/
inductive GoError where
  | errorf (text : String)
  | wrapf (cause : GoError) (text : String)
  deriving DecidableEq, Repr

/-- The text of an error (`Error()`): a wrapped error prints its own message, a colon
and the text of its cause. -/
def GoError.text : GoError → String
  | .errorf t => t
  | .wrapf c t => t ++ ": " ++ c.text

/-- Modelled from the spec: the payload of a job and the value of a result, an opaque
sequence of bytes (the type is declared outside `scheduler.go`). -/
abbrev Payload := List (Fin 256)

/-- Modelled from the spec: the state of a `Result`, declared outside `scheduler.go`:
`pending`, `fulfilled(value)` or `failed(error)`. -/
inductive ResultState where
  | pending
  | fulfilled (value : Payload)
  | failed (err : GoError)
  deriving DecidableEq, Repr

/-- Modelled from the spec: the `Result` type, declared outside `scheduler.go`: a
single-assignment future for the outcome of one job. -/
structure Result where
  state : ResultState
  deriving DecidableEq, Repr

/-- Modelled from the spec: `newResult`, declared outside `scheduler.go`: a result is
created pending. -/
def newResult : Result := ⟨.pending⟩

/-- Modelled from the spec: `Result.sendErr`, declared outside `scheduler.go`: the
transition pending → failed, which occurs at most once. -/
def Result.sendErr (r : Result) (e : GoError) : Result :=
  match r.state with
  | .pending => ⟨.failed e⟩
  | _ => r

/-- The error a result carries, if it is failed. -/
def Result.err (r : Result) : Option GoError :=
  match r.state with
  | .failed e => some e
  | _ => none

/-- The value a result carries, if it is fulfilled. -/
def Result.value (r : Result) : Option Payload :=
  match r.state with
  | .fulfilled v => some v
  | _ => none

/-- Modelled from the spec: the `Job` type, declared outside `scheduler.go`:
`{jobType, payload, result}`. -/
structure Job where
  jobType : String
  data : Payload
  result : Result
  deriving DecidableEq, Repr

/-! ## Handlers and workers -/

/-- Modelled from the spec: the `workerOpts` configuration, declared outside
`scheduler.go`; its one recognised option is the pool size. -/
structure workerOpts where
  poolSize : Nat
  deriving DecidableEq, Repr

/-- Modelled from the spec: `defaultOpts`, declared outside `scheduler.go`: the
default pool size is 1. -/
def defaultOpts : workerOpts := ⟨1⟩

/-- The Go type `Option`, a function from a configuration to a configuration. -/
abbrev OptionFn := workerOpts → workerOpts

/-- The struct `handler`; `R` is the type of runnables. -/
structure handler (R : Type) where
  runnable : R
  options : workerOpts
  deriving DecidableEq, Repr

/-- Modelled from the spec: a worker, as allocated by `newGoWorker` (declared outside
`scheduler.go`): it is built from a runnable and a configuration. `id` is the identity
of the allocation: the k-th worker allocated has `id = k`. -/
structure worker (R : Type) where
  id : Nat
  runnable : R
  options : workerOpts
  deriving DecidableEq, Repr

/-- The struct `scheduler`: the registry, the worker table and the embedded mutex
(`true` when held). -/
structure scheduler (R : Type) where
  registered : GoMap (handler R)
  workers : GoMap (worker R)
  mutex : Bool
  deriving DecidableEq, Repr

/-- One statement of `scheduler.go` that touches the scheduler or calls out of it. -/
inductive Event (R : Type) where
  /-- Statement `s.Lock()` -/
  | lock
  /-- Statement `s.Unlock()` -/
  | unlock
  /-- Statement `s.workers == nil` -/
  | workersNilCheck
  /-- Statement `s.workers = map[string]worker{}` -/
  | workersAlloc
  /-- Statement `w, isStarted := s.workers[jobType]` -/
  | workersRead (jobType : String)
  /-- Statement `s.workers[jobType] = newWorker` -/
  | workersWrite (jobType : String) (w : worker R)
  /-- Statement `s.getHandler(jobType)` is entered -/
  | getHandler (jobType : String)
  /-- Statement `s.registered == nil` -/
  | registeredNilCheck
  /-- Statement `s.registered = map[string]handler{jobType: h}` -/
  | registeredAlloc (jobType : String) (h : handler R)
  /-- Statement `r, ok := s.registered[jobType]` -/
  | registeredRead (jobType : String)
  /-- Statement `s.registered[jobType] = h` -/
  | registeredWrite (jobType : String) (h : handler R)
  /-- Statement `newGoWorker(runnable, options)` returning `w` -/
  | newGoWorker (w : worker R)
  /-- Statement `w.start(s.schedule)` -/
  | start (w : worker R)
  /-- Statement `newResult()` -/
  | newResult
  /-- Statement `result.sendErr(e)` -/
  | sendErr (e : GoError)
  /-- Statement `w.schedule(job)` -/
  | workerSchedule (w : worker R) (job : Job)
  deriving DecidableEq, Repr

/-- The scheduler together with what surrounds it: the number of workers allocated so
far and the trace of the statements executed so far (oldest first). -/
structure State (R : Type) where
  sched : scheduler R
  built : Nat
  trace : List (Event R)
  deriving DecidableEq, Repr

/-- What `scheduler.go` calls but does not define: the `%q` verb of `fmt`, and the two
methods of a worker. `start w` is the error returned by `w.start(s.schedule)` (`none`
for nil); `workerSchedule w job` is the result returned by `w.schedule(job)`. -/
structure Env (R : Type) where
  quote : String → String
  start : worker R → Option GoError
  workerSchedule : worker R → Job → Result

/-! ## The methods of the scheduler -/

/-- Append an event to the trace. -/
def State.emit {R : Type} (st : State R) (e : Event R) : State R :=
  { st with trace := st.trace ++ [e] }

/-- The function `newScheduler`. -/
def newScheduler {R : Type} : scheduler R :=
  { registered := some [], workers := some [], mutex := false }

/-- The state right after `newScheduler()`. -/
def initState {R : Type} : State R :=
  { sched := newScheduler, built := 0, trace := [] }

/-- The call `s.Lock()`: it takes the mutex when it is free. On a held mutex the caller
cannot go on: a caller that runs alone is stuck for good, a thread among others waits. -/
def Lock {R : Type} (st : State R) : Except Fault (State R) :=
  if st.sched.mutex then .error .deadlock
  else .ok ({ st with sched := { st.sched with mutex := true } }.emit .lock)

/-- The call `s.Unlock()`: it releases a held mutex. -/
def Unlock {R : Type} (st : State R) : Except Fault (State R) :=
  if st.sched.mutex then .ok ({ st with sched := { st.sched with mutex := false } }.emit .unlock)
  else .error .unlockOfUnlocked

/-- Lines 32-34 of `schedule`: allocate the worker table when it is nil. -/
def ensureWorkers {R : Type} (st : State R) : State R :=
  let st := st.emit .workersNilCheck
  match st.sched.workers with
  | none => { st with sched := { st.sched with workers := some [] } }.emit .workersAlloc
  | some _ => st

/-- Line 37 of `schedule`: `w, isStarted := s.workers[jobType]`. -/
def readWorkers {R : Type} (st : State R) (jobType : String) : Option (worker R) × State R :=
  (goLookup st.sched.workers jobType, st.emit (.workersRead jobType))

/-- Line 58 of `schedule`: `s.workers[jobType] = newWorker`. -/
def writeWorkers {R : Type} (st : State R) (jobType : String) (w : worker R) :
    Except Fault (State R) := do
  let ws ← goStore st.sched.workers jobType w
  pure ({ st with sched := { st.sched with workers := ws } }.emit (.workersWrite jobType w))

/-- Lines 90-98 of `getHandler`, between `Lock` and the deferred `Unlock`. -/
def getHandlerBody {R : Type} (st : State R) (jobType : String) :
    Option (handler R) × State R :=
  let st := st.emit .registeredNilCheck
  match st.sched.registered with
  | none => (none, st)
  | some es => (mapGet jobType es, st.emit (.registeredRead jobType))

/-- The method `getHandler`. -/
def getHandler {R : Type} (st : State R) (jobType : String) :
    Except Fault (Option (handler R) × State R) := do
  let st ← Lock (st.emit (.getHandler jobType))
  let (h, st) := getHandlerBody st jobType
  let st ← Unlock st
  pure (h, st)

/-- Lines 73-76 of `handle`: the options applied in order over `defaultOpts()`. -/
def applyOptions (options : List OptionFn) : workerOpts :=
  options.foldl (fun opts o => o opts) defaultOpts

/-- Lines 78-83 of `handle`, between `Lock` and the deferred `Unlock`. -/
def handleBody {R : Type} (st : State R) (jobType : String) (h : handler R) :
    Except Fault (State R) :=
  let st := st.emit .registeredNilCheck
  match st.sched.registered with
  | none =>
    .ok ({ st with sched := { st.sched with registered := some [(jobType, h)] } }.emit
      (.registeredAlloc jobType h))
  | some _ => do
    let reg ← goStore st.sched.registered jobType h
    pure ({ st with sched := { st.sched with registered := reg } }.emit
      (.registeredWrite jobType h))

/-- The method `handle`. -/
def handle {R : Type} (st : State R) (jobType : String) (runnable : R)
    (options : List OptionFn) : Except Fault (State R) := do
  let st ← Lock st
  let opts := applyOptions options
  let st ← handleBody st jobType ⟨runnable, opts⟩
  Unlock st

/-- Line 48 of `schedule`: `newGoWorker(runnable, options)` allocates the next worker. -/
def newGoWorker {R : Type} (st : State R) (runnable : R) (options : workerOpts) :
    worker R × State R :=
  let w : worker R := ⟨st.built, runnable, options⟩
  (w, { st with built := st.built + 1 }.emit (.newGoWorker w))

/-- Lines 43-45 and 52-54 of `schedule`: a new result that is sent the error `e`. -/
def failedResult {R : Type} (st : State R) (e : GoError) : Result × State R :=
  let result := newResult
  let st := st.emit .newResult
  let result := result.sendErr e
  let st := st.emit (.sendErr e)
  (result, st)

/-- Line 64 of `schedule`: `return w.schedule(job)`. -/
def delegate {R : Type} (E : Env R) (st : State R) (w : worker R) (job : Job) :
    Result × State R :=
  (E.workerSchedule w job, st.emit (.workerSchedule w job))

/-- The error of line 44. -/
def noHandlerError {R : Type} (E : Env R) (jobType : String) : GoError :=
  .errorf ("failed to getRunnable for jobType " ++ E.quote jobType)

/-- The error of line 53. -/
def startError {R : Type} (E : Env R) (err : GoError) (jobType : String) : GoError :=
  .wrapf err ("failed start worker for jobType " ++ E.quote jobType)

/-- The method `schedule`. -/
def schedule {R : Type} (E : Env R) (st : State R) (job : Job) :
    Except Fault (Result × State R) := do
  let st := ensureWorkers st
  let st ← Lock st
  let (w, st) := readWorkers st job.jobType
  let st ← Unlock st
  match w with
  | some w => pure (delegate E st w job)
  | none =>
    let (h, st) ← getHandler st job.jobType
    match h with
    | none => pure (failedResult st (noHandlerError E job.jobType))
    | some h =>
      let (newWorker, st) := newGoWorker st h.runnable h.options
      let st := st.emit (.start newWorker)
      match E.start newWorker with
      | some err => pure (failedResult st (startError E err job.jobType))
      | none =>
        let st ← Lock st
        let st ← writeWorkers st job.jobType newWorker
        let st ← Unlock st
        pure (delegate E st newWorker job)

/-! ## Sequences of calls -/

/-- A call on the scheduler by a caller that runs alone. -/
inductive Call (R : Type) where
  | handle (jobType : String) (runnable : R) (options : List OptionFn)
  | schedule (job : Job)

/-- The state after one call. -/
def applyCall {R : Type} (E : Env R) (st : State R) : Call R → Except Fault (State R)
  | .handle jobType runnable options => handle st jobType runnable options
  | .schedule job => (schedule E st job).map Prod.snd

/-- The state after a sequence of calls, one after the other. -/
def runCalls {R : Type} (E : Env R) (st : State R) : List (Call R) → Except Fault (State R)
  | [] => .ok st
  | c :: cs => (applyCall E st c).bind fun st' => runCalls E st' cs

/-- The handler of the last `handle` call for `jobType` in a sequence of calls. -/
def lastHandle {R : Type} (jobType : String) : List (Call R) → Option (handler R)
  | [] => none
  | .handle jt runnable options :: cs =>
    match lastHandle jobType cs with
    | some h => some h
    | none => if jt = jobType then some ⟨runnable, applyOptions options⟩ else none
  | .schedule _ :: cs => lastHandle jobType cs

/-- The number of workers that the `schedule` calls for `jobType` of a sequence of calls
allocate, when the sequence is run from `st`. -/
def builtFor {R : Type} (E : Env R) (jobType : String) (st : State R) : List (Call R) → Nat
  | [] => 0
  | c :: cs =>
    match applyCall E st c with
    | .error _ => 0
    | .ok st' =>
      (match c with
        | .schedule job => if job.jobType = jobType then st'.built - st.built else 0
        | .handle _ _ _ => 0) + builtFor E jobType st' cs

/-! ## Reading the trace -/

/-- The entries of a map; a nil map has none. -/
def goEntries {V : Type} (m : GoMap V) : List (String × V) := m.getD []

/-- Whether an event is a handler lookup: a `getHandler` call or a read of the registry. -/
def Event.isLookup {R : Type} : Event R → Bool
  | .getHandler _ => true
  | .registeredRead _ => true
  | _ => false

/-- Whether an event is the construction of a worker. -/
def Event.isConstruct {R : Type} : Event R → Bool
  | .newGoWorker _ => true
  | _ => false

/-- Whether an event is the start of a worker. -/
def Event.isStart {R : Type} : Event R → Bool
  | .start _ => true
  | _ => false

/-- Whether an event is a delegation of a job to a worker. -/
def Event.isDelegate {R : Type} : Event R → Bool
  | .workerSchedule _ _ => true
  | _ => false

/-- Whether an event is a write of the worker-table entry of `jobType`. -/
def Event.isWorkersWrite {R : Type} (jobType : String) : Event R → Bool
  | .workersWrite jt _ => decide (jt = jobType)
  | _ => false

/-- The number of writes of the worker-table entry of `jobType` in a trace. -/
def writesOf {R : Type} (jobType : String) (tr : List (Event R)) : Nat :=
  tr.countP (Event.isWorkersWrite jobType)

/-- The statements of lines 32-38 of `schedule` for job-type `jt` from state `st`. -/
def lookupWorkerEvents {R : Type} (st : State R) (jt : String) : List (Event R) :=
  (match st.sched.workers with
    | none => [.workersNilCheck, .workersAlloc]
    | some _ => [.workersNilCheck]) ++ [.lock, .workersRead jt, .unlock]

/-- The statements of a `getHandler(jt)` call from state `st`. -/
def getHandlerEvents {R : Type} (st : State R) (jt : String) : List (Event R) :=
  [.getHandler jt, .lock, .registeredNilCheck] ++
  (match st.sched.registered with
    | none => []
    | some _ => [.registeredRead jt]) ++ [.unlock]

/-- The statements of a `handle(jt, ...)` call that stores `h`, from state `st`. -/
def handleEvents {R : Type} (st : State R) (jt : String) (h : handler R) : List (Event R) :=
  [.lock, .registeredNilCheck] ++
  (match st.sched.registered with
    | none => [.registeredAlloc jt h]
    | some _ => [.registeredWrite jt h]) ++ [.unlock]

/-! ## Logical threads -/

/-- Where a logical thread stands inside a `schedule` call, with the local variables
that are live there. -/
inductive Pc (R : Type) where
  /-- before line 32 -/
  | entry
  /-- before `s.Lock()` of line 36 -/
  | lockRead
  /-- before line 37 -/
  | read
  /-- before `s.Unlock()` of line 38, holding `w, isStarted` -/
  | unlockRead (w : Option (worker R))
  /-- before the call of line 41, at `s.Lock()` of `getHandler` -/
  | getHandlerLock
  /-- inside `getHandler`, before line 90 -/
  | getHandlerBody
  /-- at the deferred `s.Unlock()` of `getHandler`, holding its return value -/
  | getHandlerUnlock (h : Option (handler R))
  /-- before line 43 -/
  | noHandler
  /-- before line 48 -/
  | construct (h : handler R)
  /-- before line 51 -/
  | start (newWorker : worker R)
  /-- before line 52 -/
  | startFailed (err : GoError)
  /-- before `s.Lock()` of line 57 -/
  | lockWrite (newWorker : worker R)
  /-- before line 58 -/
  | write (newWorker : worker R)
  /-- before `s.Unlock()` of line 59 -/
  | unlockWrite (newWorker : worker R)
  /-- before line 64 -/
  | delegate (w : worker R)
  /-- the call has returned `r` -/
  | returned (r : Result)
  deriving DecidableEq, Repr

/-- A logical thread executing `schedule(job)`. -/
structure Thread (R : Type) where
  job : Job
  pc : Pc R
  deriving DecidableEq, Repr

/-- A thread about to call `schedule(job)`. -/
def Thread.call {R : Type} (job : Job) : Thread R := ⟨job, .entry⟩

/-- One step of a thread inside `schedule`. A `Lock` on a held mutex gives
`.error .deadlock`: the thread cannot move now. A thread that has returned stays put. -/
def stepThread {R : Type} (E : Env R) (st : State R) (t : Thread R) :
    Except Fault (State R × Thread R) :=
  match t.pc with
  | .entry => pure (ensureWorkers st, { t with pc := .lockRead })
  | .lockRead => do
    let st ← Lock st
    pure (st, { t with pc := .read })
  | .read =>
    let (w, st) := readWorkers st t.job.jobType
    pure (st, { t with pc := .unlockRead w })
  | .unlockRead w => do
    let st ← Unlock st
    match w with
    | some w => pure (st, { t with pc := .delegate w })
    | none => pure (st, { t with pc := .getHandlerLock })
  | .getHandlerLock => do
    let st ← Lock (st.emit (.getHandler t.job.jobType))
    pure (st, { t with pc := .getHandlerBody })
  | .getHandlerBody =>
    let (h, st) := getHandlerBody st t.job.jobType
    pure (st, { t with pc := .getHandlerUnlock h })
  | .getHandlerUnlock h => do
    let st ← Unlock st
    match h with
    | none => pure (st, { t with pc := .noHandler })
    | some h => pure (st, { t with pc := .construct h })
  | .noHandler =>
    let (r, st) := failedResult st (noHandlerError E t.job.jobType)
    pure (st, { t with pc := .returned r })
  | .construct h =>
    let (newWorker, st) := newGoWorker st h.runnable h.options
    pure (st, { t with pc := .start newWorker })
  | .start newWorker =>
    let st := st.emit (.start newWorker)
    match E.start newWorker with
    | some err => pure (st, { t with pc := .startFailed err })
    | none => pure (st, { t with pc := .lockWrite newWorker })
  | .startFailed err =>
    let (r, st) := failedResult st (startError E err t.job.jobType)
    pure (st, { t with pc := .returned r })
  | .lockWrite newWorker => do
    let st ← Lock st
    pure (st, { t with pc := .write newWorker })
  | .write newWorker => do
    let st ← writeWorkers st t.job.jobType newWorker
    pure (st, { t with pc := .unlockWrite newWorker })
  | .unlockWrite newWorker => do
    let st ← Unlock st
    pure (st, { t with pc := .delegate newWorker })
  | .delegate w =>
    let (r, st) := delegate E st w t.job
    pure (st, { t with pc := .returned r })
  | .returned _ => pure (st, t)

/-- A thread running alone for at most `fuel` steps. -/
def runThread {R : Type} (E : Env R) : Nat → State R → Thread R →
    Except Fault (State R × Thread R)
  | 0, st, t => pure (st, t)
  | fuel + 1, st, t => do
    let (st, t) ← stepThread E st t
    runThread E fuel st t

/-- Two threads on one scheduler. -/
structure Config (R : Type) where
  st : State R
  t1 : Thread R
  t2 : Thread R
  deriving DecidableEq, Repr

/-- One step of an interleaving: the first thread moves when `first` is true, else the
second. A thread that waits for the mutex leaves everything as it is. -/
def stepConfig {R : Type} (E : Env R) (c : Config R) (first : Bool) :
    Except Fault (Config R) :=
  if first then
    match stepThread E c.st c.t1 with
    | .ok (st, t) => .ok { c with st := st, t1 := t }
    | .error .deadlock => .ok c
    | .error f => .error f
  else
    match stepThread E c.st c.t2 with
    | .ok (st, t) => .ok { c with st := st, t2 := t }
    | .error .deadlock => .ok c
    | .error f => .error f

/-- An interleaving of two threads: who moves at each step. -/
def runInterleaved {R : Type} (E : Env R) (c : Config R) : List Bool → Except Fault (Config R)
  | [] => .ok c
  | b :: bs => (stepConfig E c b).bind fun c' => runInterleaved E c' bs

/-- The result a thread has returned, if it has. -/
def Thread.returned? {R : Type} (t : Thread R) : Option Result :=
  match t.pc with
  | .returned r => some r
  | _ => none


/-! ## Sample data -/

/-- A sample environment: every worker starts, and a worker hands back the result
attached to the job. -/
def demoEnv : Env Nat :=
  { quote := fun s => "\"" ++ s ++ "\""
    start := fun _ => none
    workerSchedule := fun _ job => job.result }

/-- A sample environment in which the first worker allocated fails to start. -/
def flakyEnv : Env Nat :=
  { quote := fun s => "\"" ++ s ++ "\""
    start := fun w => if w.id = 0 then some (.errorf "out of memory") else none
    workerSchedule := fun _ job => job.result }

/-- A sample job of job-type `echo`. -/
def demoJob : Job := ⟨"echo", [104, 105], newResult⟩

/-- A second sample job of job-type `echo`. -/
def otherJob : Job := ⟨"echo", [98, 121, 101], newResult⟩

/-- A sample state: runnable `7` is registered for `echo`, no worker exists yet. -/
def registeredState : State Nat :=
  { sched := { registered := some [("echo", ⟨7, defaultOpts⟩)], workers := some [],
               mutex := false },
    built := 0, trace := [] }

/-- A sample state: runnable `7` is registered for `echo` and its worker exists. -/
def startedState : State Nat :=
  { sched := { registered := some [("echo", ⟨7, defaultOpts⟩)],
               workers := some [("echo", ⟨0, 7, defaultOpts⟩)], mutex := false },
    built := 1, trace := [] }

/-- A sample sequence of calls: `echo` is registered twice, the second time with a
pool of four. -/
def registerTwice : List (Call Nat) :=
  [.handle "echo" 3 [], .handle "echo" 7 [fun o => { o with poolSize := 4 }]]

/-- The state after `registerTwice` from a new scheduler. -/
def registeredTwiceState : State Nat :=
  { sched := { registered := some [("echo", ⟨7, ⟨4⟩⟩)], workers := some [], mutex := false },
    built := 0,
    trace := [.lock, .registeredNilCheck, .registeredWrite "echo" ⟨3, ⟨1⟩⟩, .unlock,
              .lock, .registeredNilCheck, .registeredWrite "echo" ⟨7, ⟨4⟩⟩, .unlock] }

/-- A sample interleaving of two `schedule` calls: the first thread runs lines 32-38,
then the second thread runs lines 32-38, then the first thread runs to its return, then
the second thread runs to its return. -/
def raceInterleaving : List Bool :=
  [true, true, true, true, false, false, false, false,
   true, true, true, true, true, true, true, true, true,
   false, false, false, false, false, false, false, false, false]

/-- The configuration that `raceInterleaving` reaches from `registeredState` with the
two sample jobs. -/
def raceOutcome : Config Nat :=
  { st :=
      { sched := { registered := some [("echo", ⟨7, defaultOpts⟩)],
                   workers := some [("echo", ⟨1, 7, defaultOpts⟩)], mutex := false },
        built := 2,
        trace :=
          [.workersNilCheck, .lock, .workersRead "echo", .unlock,
           .workersNilCheck, .lock, .workersRead "echo", .unlock,
           .getHandler "echo", .lock, .registeredNilCheck, .registeredRead "echo", .unlock,
           .newGoWorker ⟨0, 7, defaultOpts⟩, .start ⟨0, 7, defaultOpts⟩,
           .lock, .workersWrite "echo" ⟨0, 7, defaultOpts⟩, .unlock,
           .workerSchedule ⟨0, 7, defaultOpts⟩ demoJob,
           .getHandler "echo", .lock, .registeredNilCheck, .registeredRead "echo", .unlock,
           .newGoWorker ⟨1, 7, defaultOpts⟩, .start ⟨1, 7, defaultOpts⟩,
           .lock, .workersWrite "echo" ⟨1, 7, defaultOpts⟩, .unlock,
           .workerSchedule ⟨1, 7, defaultOpts⟩ otherJob] },
    t1 := ⟨demoJob, .returned demoJob.result⟩,
    t2 := ⟨otherJob, .returned otherJob.result⟩ }

/-! ## The zero-value scheduler, locking, and the words of the spec -/

/-- The state of a zero-value `scheduler{}`: both maps nil, the mutex free. -/
def zeroState {R : Type} : State R :=
  { sched := { registered := none, workers := none, mutex := false }, built := 0, trace := [] }

/-- Whether an event reads or writes the registry or the worker table (the map value
itself, as in a nil check or an allocation, or one of its entries). -/
def Event.isMapAccess {R : Type} : Event R → Bool
  | .workersNilCheck => true
  | .workersAlloc => true
  | .workersRead _ => true
  | .workersWrite _ _ => true
  | .registeredNilCheck => true
  | .registeredAlloc _ _ => true
  | .registeredRead _ => true
  | .registeredWrite _ _ => true
  | _ => false

/-- Whether an event writes the registry. -/
def Event.isRegistryWrite {R : Type} : Event R → Bool
  | .registeredAlloc _ _ => true
  | .registeredWrite _ _ => true
  | _ => false

/-- The events of a trace that happen while the mutex is held; `held` tells whether it
is held when the trace starts. The `lock` and `unlock` events themselves are left out. -/
def underLock {R : Type} : Bool → List (Event R) → List (Event R)
  | _, [] => []
  | held, e :: es =>
    match e with
    | .lock => underLock true es
    | .unlock => underLock false es
    | _ => if held then e :: underLock held es else underLock held es

/-- The events of a trace that happen while the mutex is not held; `held` tells whether
it is held when the trace starts. The `lock` and `unlock` events themselves are left
out. -/
def outsideLock {R : Type} : Bool → List (Event R) → List (Event R)
  | _, [] => []
  | held, e :: es =>
    match e with
    | .lock => outsideLock true es
    | .unlock => outsideLock false es
    | _ => if held then outsideLock held es else e :: outsideLock held es

/-- The words of the spec for the no-handler error: the text
`no handler registered for job-type` followed by the job-type rendered by `%q`. -/
def specNoHandlerText {R : Type} (E : Env R) (jobType : String) : String :=
  "no handler registered for job-type " ++ E.quote jobType

/-- The words of the spec for the stored configuration: `on(...(o2(o1(defaultOpts()))))`,
the last option outermost. -/
def specConfig (options : List OptionFn) : workerOpts :=
  options.reverse.foldr (fun o c => o c) defaultOpts

/-! ## Results once terminal, the shared state store, groups -/

/-- Modelled from the spec: `Result.wait` (`Then` in the tests), declared outside
`scheduler.go`: the terminal payload `(value, error)` of a result; `none` while the
result is pending, when the caller is still blocked. -/
def Result.wait (r : Result) : Option (Option Payload × Option GoError) :=
  match r.state with
  | .pending => none
  | .fulfilled v => some (some v, none)
  | .failed e => some (none, some e)

/-- Modelled from the spec: the Shared State Store, declared outside `scheduler.go`: one
process-wide mapping from string keys to bytes. -/
abbrev Store := List (String × Payload)

/-- Modelled from the spec: `set(key, value)` of the Shared State Store. -/
def Store.set (s : Store) (key : String) (value : Payload) : Store := mapSet key value s

/-- Modelled from the spec: `get(key) -> (value, found)` of the Shared State Store. -/
def Store.get (s : Store) (key : String) : Option Payload := mapGet key s

/-- Modelled from the spec: the one capability of a runnable, `execute(input, context)
-> (output, error)`, declared outside `scheduler.go`; the context gives access to the
Shared State Store, which the execution may change. -/
abbrev Execute (R : Type) := R → Payload → Store → Except GoError Payload × Store

/-- Modelled from the spec: what a worker makes of the result of a job when the
execution of its runnable ends: fulfilled with the value, or failed with the error. -/
def completed (out : Except GoError Payload) : Result :=
  match out with
  | .ok v => ⟨.fulfilled v⟩
  | .error e => ⟨.failed e⟩

/-- The worker and the job of the delegation that ends a trace, if it ends with one. -/
def delegatedTo {R : Type} (tr : List (Event R)) : Option (worker R × Job) :=
  match tr.getLast? with
  | some (.workerSchedule w job) => some (w, job)
  | _ => none

/-- Modelled from the spec: submit a job and wait for its result. The scheduler routes
the job; the worker that receives it executes its runnable on the payload of the job
with the store as context and makes the result terminal; a result that the scheduler
itself failed is returned as it is. -/
def submitAndWait {R : Type} (E : Env R) (exec : Execute R) (st : State R) (store : Store)
    (job : Job) : Except Fault (Result × State R × Store) := do
  let (r, st') ← schedule E st job
  match delegatedTo st'.trace with
  | some (w, j) =>
    let (out, store') := exec w.runnable j.data store
    pure (completed out, st', store')
  | none => pure (r, st', store)

/-- Modelled from the tests: the two kinds of runnable of the cache tests, one that sets
a key of the Shared State Store to its input, one that gets a key. -/
inductive CacheRunnable where
  | setter (key : String)
  | getter (key : String)
  deriving DecidableEq, Repr

/-- Modelled from the tests: the execution of a cache runnable: the setter stores its
input under its key, the getter returns what is stored under its key and fails when
nothing is. -/
def CacheRunnable.execute : Execute CacheRunnable
  | .setter key, input, s => (.ok [], s.set key input)
  | .getter key, _, s =>
    match s.get key with
    | some v => (.ok v, s)
    | none => (.error (.errorf "key not found"), s)

/-- Modelled from the spec: a `Group`, declared outside `scheduler.go`: the ordered
sequence of the results added to it. -/
structure Group where
  members : List Result
  deriving DecidableEq, Repr

/-- Modelled from the spec: `NewGroup`, a group without members. -/
def newGroup : Group := ⟨[]⟩

/-- Modelled from the spec: `Group.add(result)` appends a result to the join set. -/
def Group.add (g : Group) (r : Result) : Group := ⟨g.members ++ [r]⟩

/-- Whether a result is still pending. -/
def Result.isPending (r : Result) : Bool :=
  match r.state with
  | .pending => true
  | _ => false

/-- Modelled from the spec: `Group.wait() -> error`: it blocks (`none`) while a member
is pending; once every member is terminal it returns nil (`some none`) if every member
is fulfilled, and otherwise the error of the first member, in insertion order, that
failed. -/
def Group.wait (g : Group) : Option (Option GoError) :=
  if g.members.any Result.isPending then none
  else some (g.members.findSome? Result.err)

/-- A sample state: a zero-value scheduler on which `echo` has been registered, so that
the registry is allocated and the worker table is still nil. -/
def lazyState : State Nat :=
  { sched := { registered := some [("echo", ⟨7, defaultOpts⟩)], workers := none,
               mutex := false },
    built := 0, trace := [] }

/-- The bytes of `hello` and a blank. -/
def helloBytes : Payload := [104, 101, 108, 108, 111, 32]

/-- Modelled from the tests: the execution of the echo runnable of the tests, which
returns `hello` and a blank followed by its input and leaves the store alone. -/
def echoExecute : Execute Nat := fun _ input store => (.ok (helloBytes ++ input), store)

/-- A sample environment for cache runnables: every worker starts. -/
def cacheEnv : Env CacheRunnable :=
  { quote := fun s => "\"" ++ s ++ "\""
    start := fun _ => none
    workerSchedule := fun _ job => job.result }

/-- A sample state: `rust-set` is registered with a setter and `swift-get` with a getter
of the same key, no worker exists yet. -/
def cacheState : State CacheRunnable :=
  { sched := { registered := some [("rust-set", ⟨.setter "important", defaultOpts⟩),
                                   ("swift-get", ⟨.getter "important", defaultOpts⟩)],
               workers := some [], mutex := false },
    built := 0, trace := [] }

/-! ## Reading more off the trace; schedulers behind pointers -/

/-- Whether an event is the creation of a result. -/
def Event.isNewResult {R : Type} : Event R → Bool
  | .newResult => true
  | _ => false

/-- Whether an event sends an error to a result. -/
def Event.isSendErr {R : Type} : Event R → Bool
  | .sendErr _ => true
  | _ => false

/-- Whether an event is the entry into `getHandler`. -/
def Event.isGetHandler {R : Type} : Event R → Bool
  | .getHandler _ => true
  | _ => false

/-- The lock discipline of a trace: starting with the mutex held or not, every `lock`
must find it free and every `unlock` must find it held. The answer is the state of the
mutex at the end, or `none` when the discipline is broken. -/
def lockDiscipline {R : Type} : Bool → List (Event R) → Option Bool
  | held, [] => some held
  | held, e :: es =>
    match e with
    | .lock => if held then none else lockDiscipline true es
    | .unlock => if held then lockDiscipline false es else none
    | _ => lockDiscipline held es

/-- The address of a scheduler: a scheduler is used through a pointer `*scheduler`. -/
abbrev Addr := Nat

/-- A value of the Go type of the argument of `start`, as `scheduler.go` builds it: the
method value `s.schedule`, a function bound to the pointer `s`. It is determined by the
address of its receiver. -/
structure RunFunc where
  receiver : Addr
  deriving DecidableEq, Repr

/-- Several schedulers, each at its address with its own state. -/
abbrev Heap (R : Type) := Addr → State R

/-- A call `w.start(f)`. -/
structure StartCall (R : Type) where
  w : worker R
  f : RunFunc
  deriving DecidableEq, Repr

/-- What `scheduler.go` calls but does not define, for schedulers used through
pointers: as `Env`, except that `start w f` is the error returned by `w.start(f)` for
the function value `f` that the worker is handed. -/
structure EnvAt (R : Type) where
  quote : String → String
  start : worker R → RunFunc → Option GoError
  workerSchedule : worker R → Job → Result

/-- The environment in which every worker is started with the function value `f`. -/
def EnvAt.toEnv {R : Type} (E : EnvAt R) (f : RunFunc) : Env R :=
  { quote := E.quote, start := fun w => E.start w f, workerSchedule := E.workerSchedule }

/-- The method `schedule` with its receiver: `s` is the pointer the method is called on
and `st` the scheduler it points to. The statements are those of `schedule`; line 51,
`newWorker.start(s.schedule)`, hands the worker the method value of the receiver `s`.
Next to the result and the state it gives the `start` calls it has made. -/
def scheduleRecv {R : Type} (E : EnvAt R) (s : Addr) (st : State R) (job : Job) :
    Except Fault (Result × State R × List (StartCall R)) := do
  let st := ensureWorkers st
  let st ← Lock st
  let (w, st) := readWorkers st job.jobType
  let st ← Unlock st
  match w with
  | some w =>
    let (r, st) := delegate (E.toEnv ⟨s⟩) st w job
    pure (r, st, [])
  | none =>
    let (h, st) ← getHandler st job.jobType
    match h with
    | none =>
      let (r, st) := failedResult st (noHandlerError (E.toEnv ⟨s⟩) job.jobType)
      pure (r, st, [])
    | some h =>
      let (newWorker, st) := newGoWorker st h.runnable h.options
      let runFunc : RunFunc := ⟨s⟩
      let st := st.emit (.start newWorker)
      match E.start newWorker runFunc with
      | some err =>
        let (r, st) := failedResult st (startError (E.toEnv ⟨s⟩) err job.jobType)
        pure (r, st, [⟨newWorker, runFunc⟩])
      | none =>
        let st ← Lock st
        let st ← writeWorkers st job.jobType newWorker
        let st ← Unlock st
        let (r, st) := delegate (E.toEnv ⟨s⟩) st newWorker job
        pure (r, st, [⟨newWorker, runFunc⟩])

/-- The call `s.schedule(job)` by a caller that holds the pointer `s`: the method runs on
the scheduler that `s` points to, and only that scheduler moves. -/
def callSchedule {R : Type} (E : EnvAt R) (heap : Heap R) (s : Addr) (job : Job) :
    Except Fault (Result × Heap R × List (StartCall R)) := do
  let (r, st', calls) ← scheduleRecv E s (heap s) job
  pure (r, Function.update heap s st', calls)

/-- The call `f(job)` of a function value `f`: a method value `s.schedule` called with
`job` is the call `s.schedule(job)` on its receiver. -/
def RunFunc.call {R : Type} (E : EnvAt R) (f : RunFunc) (heap : Heap R) (job : Job) :
    Except Fault (Result × Heap R × List (StartCall R)) :=
  callSchedule E heap f.receiver job

/-- A sample environment for schedulers behind pointers: a worker starts only when it
is handed the method value of the scheduler at address 0. -/
def demoEnvAt : EnvAt Nat :=
  { quote := fun s => "\"" ++ s ++ "\""
    start := fun _ f => if f.receiver = 0 then none else some (.errorf "wrong dispatcher")
    workerSchedule := fun _ job => job.result }

/-- A sample execution: the runnable `n` returns the one byte `n`, whatever its input,
and leaves the store alone. -/
def tagExecute : Execute Nat := fun rn _ store => (.ok [Fin.ofNat rn], store)

/-- A sample sequence of calls: `echo` is registered with runnable 7, a first job
creates its worker, then `echo` is registered again with runnable 9. -/
def reregisterCalls : List (Call Nat) :=
  [.handle "echo" 7 [], .schedule demoJob, .handle "echo" 9 []]

/-- A sample heap: the scheduler at address 0 has `echo` registered, all others are new. -/
def demoHeap : Heap Nat := fun a => if a = 0 then registeredState else initState

/-- A sample payload of 65536 bytes. -/
def largePayload : Payload := List.replicate 65536 97

/-! ## Lemmas on maps -/

section Lemmas

variable {R : Type} {V : Type}

theorem mapGet_mapSet_same (k : String) (v : V) (m : List (String × V)) :
    mapGet k (mapSet k v m) = some v := by
  induction m with
  | nil => simp [mapSet, mapGet]
  | cons e m ih =>
    obtain ⟨k', v'⟩ := e
    by_cases hk : k' = k <;> simp [mapSet, mapGet, hk, ih]

theorem mapGet_mapSet_other (k k' : String) (v : V) (m : List (String × V)) (h : k' ≠ k) :
    mapGet k' (mapSet k v m) = mapGet k' m := by
  induction m with
  | nil => simp [mapSet, mapGet, h.symm]
  | cons e m ih =>
    obtain ⟨k₀, v₀⟩ := e
    by_cases hk : k₀ = k
    · subst hk
      simp [mapSet, mapGet, h.symm]
    · by_cases hk' : k₀ = k'
      · subst hk'
        simp [mapSet, mapGet, hk]
      · simp [mapSet, mapGet, hk, hk', ih]

theorem mapGet_isSome_iff (k : String) (m : List (String × V)) :
    (mapGet k m).isSome ↔ k ∈ mapKeys m := by
  induction m with
  | nil => simp [mapGet, mapKeys]
  | cons e m ih =>
    obtain ⟨k₀, v₀⟩ := e
    by_cases hk : k₀ = k
    · simp [mapGet, mapKeys, hk]
    · have hk' : ¬ k = k₀ := fun h => hk h.symm
      simpa [mapGet, mapKeys, hk, hk'] using ih

theorem mapKeys_mapSet_of_mem (k : String) (v : V) (m : List (String × V))
    (h : k ∈ mapKeys m) : mapKeys (mapSet k v m) = mapKeys m := by
  induction m with
  | nil => simp [mapKeys] at h
  | cons e m ih =>
    obtain ⟨k₀, v₀⟩ := e
    by_cases hk : k₀ = k
    · simp [mapSet, mapKeys, hk]
    · have hk' : ¬ k = k₀ := fun h => hk h.symm
      have hmem : k ∈ mapKeys m := by simpa [mapKeys, hk'] using h
      have := ih hmem
      simp only [mapKeys] at this
      simp [mapSet, mapKeys, hk, this]

theorem mapKeys_mapSet_of_not_mem (k : String) (v : V) (m : List (String × V))
    (h : k ∉ mapKeys m) : mapKeys (mapSet k v m) = mapKeys m ++ [k] := by
  induction m with
  | nil => simp [mapSet, mapKeys]
  | cons e m ih =>
    obtain ⟨k₀, v₀⟩ := e
    have hk : ¬ k₀ = k := fun hh => h (by simp [mapKeys, hh])
    have hmem : k ∉ mapKeys m := fun hh => h (by simp only [mapKeys] at hh; simp [mapKeys, hh])
    have := ih hmem
    simp only [mapKeys] at this
    simp [mapSet, mapKeys, hk, this]

theorem mapKeys_mapSet_nodup (k : String) (v : V) (m : List (String × V))
    (h : (mapKeys m).Nodup) : (mapKeys (mapSet k v m)).Nodup := by
  by_cases hk : k ∈ mapKeys m
  · rw [mapKeys_mapSet_of_mem k v m hk]; exact h
  · rw [mapKeys_mapSet_of_not_mem k v m hk]
    exact List.nodup_append.mpr ⟨h, List.nodup_singleton k, by simpa using hk⟩

theorem mem_mapKeys_mapSet (k k' : String) (v : V) (m : List (String × V))
    (h : k' ∈ mapKeys m) : k' ∈ mapKeys (mapSet k v m) := by
  by_cases hk : k ∈ mapKeys m
  · rw [mapKeys_mapSet_of_mem k v m hk]; exact h
  · rw [mapKeys_mapSet_of_not_mem k v m hk]; simp [h]

theorem goLookup_eq_mapGet (m : GoMap V) (k : String) :
    goLookup m k = mapGet k (goEntries m) := by
  cases m <;> simp [goLookup, goEntries, mapGet]

/-! ## The methods, path by path -/

theorem getHandler_eq (st : State R) (jt : String) (hm : st.sched.mutex = false) :
    getHandler st jt = .ok (goLookup st.sched.registered jt,
      { sched := st.sched, built := st.built,
        trace := st.trace ++ getHandlerEvents st jt }) := by
  obtain ⟨⟨reg, ws, mu⟩, built, trace⟩ := st
  simp only at hm
  subst hm
  cases reg <;>
    simp [getHandler, getHandlerBody, Lock, Unlock, State.emit, getHandlerEvents, goLookup,
      bind, Except.bind, pure, Except.pure]

theorem handle_eq (st : State R) (jt : String) (r : R) (options : List OptionFn)
    (hm : st.sched.mutex = false) :
    handle st jt r options = .ok
      { sched := { registered := some (mapSet jt ⟨r, applyOptions options⟩
                     (goEntries st.sched.registered)),
                   workers := st.sched.workers, mutex := false },
        built := st.built,
        trace := st.trace ++ handleEvents st jt ⟨r, applyOptions options⟩ } := by
  obtain ⟨⟨reg, ws, mu⟩, built, trace⟩ := st
  simp only at hm
  subst hm
  cases reg <;>
    simp [handle, handleBody, Lock, Unlock, State.emit, handleEvents, goStore, goEntries,
      mapSet, bind, Except.bind, pure, Except.pure]

theorem schedule_existing (E : Env R) (st : State R) (job : Job) (w : worker R)
    (hm : st.sched.mutex = false) (hw : goLookup st.sched.workers job.jobType = some w) :
    schedule E st job = .ok (E.workerSchedule w job,
      { sched := st.sched, built := st.built,
        trace := st.trace ++ lookupWorkerEvents st job.jobType ++ [.workerSchedule w job] }) := by
  obtain ⟨⟨reg, ws, mu⟩, built, trace⟩ := st
  simp only at hm hw
  subst hm
  cases ws with
  | none => simp [goLookup] at hw
  | some es =>
    simp [schedule, ensureWorkers, Lock, Unlock, readWorkers, delegate, State.emit, hw,
      lookupWorkerEvents, bind, Except.bind, pure, Except.pure]

theorem schedule_noHandler (E : Env R) (st : State R) (job : Job)
    (hm : st.sched.mutex = false) (hw : goLookup st.sched.workers job.jobType = none)
    (hh : goLookup st.sched.registered job.jobType = none) :
    schedule E st job = .ok (⟨.failed (noHandlerError E job.jobType)⟩,
      { sched := { registered := st.sched.registered,
                   workers := some (goEntries st.sched.workers), mutex := false },
        built := st.built,
        trace := st.trace ++ lookupWorkerEvents st job.jobType ++
          getHandlerEvents st job.jobType ++
          [.newResult, .sendErr (noHandlerError E job.jobType)] }) := by
  obtain ⟨⟨reg, ws, mu⟩, built, trace⟩ := st
  simp only at hm hw hh
  subst hm
  cases ws <;> cases reg <;>
    simp_all [schedule, ensureWorkers, Lock, Unlock, readWorkers, failedResult, State.emit,
      lookupWorkerEvents, getHandlerEvents, getHandler, getHandlerBody, goLookup, goEntries,
      mapGet, newResult, Result.sendErr, bind, Except.bind, pure, Except.pure]

theorem schedule_startFailed (E : Env R) (st : State R) (job : Job) (h : handler R)
    (err : GoError)
    (hm : st.sched.mutex = false) (hw : goLookup st.sched.workers job.jobType = none)
    (hh : goLookup st.sched.registered job.jobType = some h)
    (hs : E.start ⟨st.built, h.runnable, h.options⟩ = some err) :
    schedule E st job = .ok (⟨.failed (startError E err job.jobType)⟩,
      { sched := { registered := st.sched.registered,
                   workers := some (goEntries st.sched.workers), mutex := false },
        built := st.built + 1,
        trace := st.trace ++ lookupWorkerEvents st job.jobType ++
          getHandlerEvents st job.jobType ++
          [.newGoWorker ⟨st.built, h.runnable, h.options⟩,
           .start ⟨st.built, h.runnable, h.options⟩,
           .newResult, .sendErr (startError E err job.jobType)] }) := by
  obtain ⟨⟨reg, ws, mu⟩, built, trace⟩ := st
  simp only at hm hw hh hs
  subst hm
  cases ws <;> cases reg <;>
    simp_all [schedule, ensureWorkers, Lock, Unlock, readWorkers, failedResult, State.emit,
      lookupWorkerEvents, getHandlerEvents, getHandler, getHandlerBody, goLookup, goEntries,
      mapGet, newGoWorker, newResult, Result.sendErr, bind, Except.bind, pure, Except.pure]

theorem schedule_created (E : Env R) (st : State R) (job : Job) (h : handler R)
    (hm : st.sched.mutex = false) (hw : goLookup st.sched.workers job.jobType = none)
    (hh : goLookup st.sched.registered job.jobType = some h)
    (hs : E.start ⟨st.built, h.runnable, h.options⟩ = none) :
    schedule E st job = .ok (E.workerSchedule ⟨st.built, h.runnable, h.options⟩ job,
      { sched := { registered := st.sched.registered,
                   workers := some (mapSet job.jobType ⟨st.built, h.runnable, h.options⟩
                     (goEntries st.sched.workers)),
                   mutex := false },
        built := st.built + 1,
        trace := st.trace ++ lookupWorkerEvents st job.jobType ++
          getHandlerEvents st job.jobType ++
          [.newGoWorker ⟨st.built, h.runnable, h.options⟩,
           .start ⟨st.built, h.runnable, h.options⟩,
           .lock,
           .workersWrite job.jobType ⟨st.built, h.runnable, h.options⟩,
           .unlock,
           .workerSchedule ⟨st.built, h.runnable, h.options⟩ job] }) := by
  obtain ⟨⟨reg, ws, mu⟩, built, trace⟩ := st
  simp only at hm hw hh hs
  subst hm
  cases ws <;> cases reg <;>
    simp_all [schedule, ensureWorkers, Lock, Unlock, readWorkers, delegate, State.emit,
      lookupWorkerEvents, getHandlerEvents, getHandler, getHandlerBody, goLookup, goEntries,
      mapGet, newGoWorker, writeWorkers, goStore, bind, Except.bind, pure, Except.pure]

/-! ## One call, then sequences of calls -/

theorem writesOf_append (jt : String) (a b : List (Event R)) :
    writesOf jt (a ++ b) = writesOf jt a + writesOf jt b := by
  simp [writesOf, List.countP_append]

theorem writesOf_lookupWorkerEvents (st : State R) (jt k : String) :
    writesOf k (lookupWorkerEvents st jt) = 0 := by
  cases hws : st.sched.workers <;>
    simp [writesOf, lookupWorkerEvents, hws, Event.isWorkersWrite]

theorem writesOf_getHandlerEvents (st : State R) (jt k : String) :
    writesOf k (getHandlerEvents st jt) = 0 := by
  cases hrs : st.sched.registered <;>
    simp [writesOf, getHandlerEvents, hrs, Event.isWorkersWrite]

theorem writesOf_handleEvents (st : State R) (jt k : String) (h : handler R) :
    writesOf k (handleEvents st jt h) = 0 := by
  cases hrs : st.sched.registered <;>
    simp [writesOf, handleEvents, hrs, Event.isWorkersWrite]

/-- What one `schedule` call does to the mutex, the registry, the worker table, the
allocation counter and the writes of the worker table. -/
theorem schedule_step (E : Env R) (st : State R) (job : Job) (hm : st.sched.mutex = false) :
    ∃ r st', schedule E st job = .ok (r, st') ∧ st'.sched.mutex = false ∧
      st'.sched.registered = st.sched.registered ∧
      (∀ k w, goLookup st.sched.workers k = some w →
        goLookup st'.sched.workers k = some w ∧ writesOf k st'.trace = writesOf k st.trace) ∧
      (∀ k, goLookup st.sched.workers k = none →
        (goLookup st'.sched.workers k = none ∧ writesOf k st'.trace = writesOf k st.trace) ∨
        ((goLookup st'.sched.workers k).isSome ∧
          writesOf k st'.trace = writesOf k st.trace + 1)) ∧
      ((goLookup st.sched.workers job.jobType).isSome → st'.built = st.built) := by
  cases hw : goLookup st.sched.workers job.jobType with
  | some w =>
    rw [schedule_existing E st job w hm hw]
    refine ⟨_, _, rfl, hm, rfl, ?_, ?_, fun _ => rfl⟩
    · intro k w' hk
      refine ⟨hk, ?_⟩
      simp [writesOf_append, writesOf_lookupWorkerEvents]
      simp [writesOf, Event.isWorkersWrite]
    · intro k hk
      left
      refine ⟨hk, ?_⟩
      simp [writesOf_append, writesOf_lookupWorkerEvents]
      simp [writesOf, Event.isWorkersWrite]
  | none =>
    cases hh : goLookup st.sched.registered job.jobType with
    | none =>
      rw [schedule_noHandler E st job hm hw hh]
      refine ⟨_, _, rfl, rfl, rfl, ?_, ?_, by simp⟩
      · intro k w' hk
        refine ⟨by simpa [goLookup_eq_mapGet, goEntries] using hk, ?_⟩
        simp [writesOf_append, writesOf_lookupWorkerEvents, writesOf_getHandlerEvents]
        simp [writesOf, Event.isWorkersWrite]
      · intro k hk
        left
        refine ⟨by simpa [goLookup_eq_mapGet, goEntries] using hk, ?_⟩
        simp [writesOf_append, writesOf_lookupWorkerEvents, writesOf_getHandlerEvents]
        simp [writesOf, Event.isWorkersWrite]
    | some h =>
      cases hs : E.start ⟨st.built, h.runnable, h.options⟩ with
      | some err =>
        rw [schedule_startFailed E st job h err hm hw hh hs]
        refine ⟨_, _, rfl, rfl, rfl, ?_, ?_, by simp⟩
        · intro k w' hk
          refine ⟨by simpa [goLookup_eq_mapGet, goEntries] using hk, ?_⟩
          simp [writesOf_append, writesOf_lookupWorkerEvents, writesOf_getHandlerEvents]
          simp [writesOf, Event.isWorkersWrite]
        · intro k hk
          left
          refine ⟨by simpa [goLookup_eq_mapGet, goEntries] using hk, ?_⟩
          simp [writesOf_append, writesOf_lookupWorkerEvents, writesOf_getHandlerEvents]
          simp [writesOf, Event.isWorkersWrite]
      | none =>
        rw [schedule_created E st job h hm hw hh hs]
        refine ⟨_, _, rfl, rfl, rfl, ?_, ?_, by simp⟩
        · intro k w' hk
          have hne : k ≠ job.jobType := by
            intro hkj
            rw [hkj, hw] at hk
            exact Option.noConfusion hk
          have hne' : ¬ job.jobType = k := fun hh => hne hh.symm
          refine ⟨?_, ?_⟩
          · simpa [goLookup_eq_mapGet, goEntries, mapGet_mapSet_other _ _ _ _ hne] using hk
          · simp [writesOf_append, writesOf_lookupWorkerEvents, writesOf_getHandlerEvents]
            simp [writesOf, Event.isWorkersWrite, hne']
        · intro k hk
          by_cases hkj : job.jobType = k
          · right
            subst hkj
            refine ⟨by simp [goLookup, mapGet_mapSet_same], ?_⟩
            simp [writesOf_append, writesOf_lookupWorkerEvents, writesOf_getHandlerEvents]
            simp [writesOf, Event.isWorkersWrite]
          · left
            have hne : k ≠ job.jobType := fun hh => hkj hh.symm
            refine ⟨?_, ?_⟩
            · simpa [goLookup_eq_mapGet, goEntries, mapGet_mapSet_other _ _ _ _ hne] using hk
            · simp [writesOf_append, writesOf_lookupWorkerEvents, writesOf_getHandlerEvents]
              simp [writesOf, Event.isWorkersWrite, hkj]

/-- What one call does to the mutex, the worker table, the allocation counter and the
writes of the worker table. -/
theorem applyCall_step (E : Env R) (st : State R) (c : Call R) (hm : st.sched.mutex = false) :
    ∃ st', applyCall E st c = .ok st' ∧ st'.sched.mutex = false ∧
      (∀ k w, goLookup st.sched.workers k = some w →
        goLookup st'.sched.workers k = some w ∧ writesOf k st'.trace = writesOf k st.trace) ∧
      (∀ k, goLookup st.sched.workers k = none →
        (goLookup st'.sched.workers k = none ∧ writesOf k st'.trace = writesOf k st.trace) ∨
        ((goLookup st'.sched.workers k).isSome ∧
          writesOf k st'.trace = writesOf k st.trace + 1)) ∧
      (∀ job, c = .schedule job → (goLookup st.sched.workers job.jobType).isSome →
        st'.built = st.built) := by
  cases c with
  | handle jt r options =>
    simp only [applyCall]
    rw [handle_eq st jt r options hm]
    refine ⟨_, rfl, rfl, ?_, ?_, ?_⟩
    · intro k w hk
      exact ⟨hk, by simp [writesOf_append, writesOf_handleEvents]⟩
    · intro k hk
      exact Or.inl ⟨hk, by simp [writesOf_append, writesOf_handleEvents]⟩
    · intro job hjob
      exact Call.noConfusion hjob
  | schedule job =>
    obtain ⟨r, st', hrun, hm', _, hkeep, hnew, hbuilt⟩ := schedule_step E st job hm
    refine ⟨st', by simp [applyCall, hrun, Except.map], hm', hkeep, hnew, ?_⟩
    intro job' hjob
    cases hjob
    exact hbuilt

/-- What one call does to the registry. -/
theorem applyCall_registered (E : Env R) (st st' : State R) (c : Call R) (jt : String)
    (hm : st.sched.mutex = false) (hrun : applyCall E st c = .ok st') :
    goLookup st'.sched.registered jt =
      match c with
      | .handle jt' r options =>
        if jt' = jt then some ⟨r, applyOptions options⟩ else goLookup st.sched.registered jt
      | .schedule _ => goLookup st.sched.registered jt := by
  cases c with
  | handle jt' r options =>
    simp only [applyCall] at hrun
    rw [handle_eq st jt' r options hm] at hrun
    cases hrun
    by_cases hj : jt' = jt
    · subst hj
      simp [goLookup, mapGet_mapSet_same]
    · have hne : jt ≠ jt' := fun hh => hj hh.symm
      simp [goLookup_eq_mapGet, goEntries, mapGet_mapSet_other _ _ _ _ hne, hj]
  | schedule job =>
    obtain ⟨r, st'', hrun', _, hreg, _⟩ := schedule_step E st job hm
    simp [applyCall, hrun', Except.map] at hrun
    subst hrun
    simp [hreg]

/-- A sequence of calls from a state with a free mutex runs to its end. -/
theorem runCalls_ok (E : Env R) (cs : List (Call R)) (st : State R)
    (hm : st.sched.mutex = false) :
    ∃ st', runCalls E st cs = .ok st' ∧ st'.sched.mutex = false := by
  induction cs generalizing st with
  | nil => exact ⟨st, rfl, hm⟩
  | cons c cs ih =>
    obtain ⟨st₁, hrun, hm₁, _⟩ := applyCall_step E st c hm
    obtain ⟨st', hrun', hm'⟩ := ih st₁ hm₁
    exact ⟨st', by simp [runCalls, hrun, Except.bind, hrun'], hm'⟩

/-- The registry after a sequence of calls holds, for each job-type, the handler of the
last `handle` call for it, or else what it held before. -/
theorem runCalls_registered (E : Env R) (jt : String) (cs : List (Call R)) (st st' : State R)
    (hm : st.sched.mutex = false) (hrun : runCalls E st cs = .ok st') :
    goLookup st'.sched.registered jt =
      match lastHandle jt cs with
      | some h => some h
      | none => goLookup st.sched.registered jt := by
  induction cs generalizing st with
  | nil =>
    simp only [runCalls] at hrun
    cases hrun
    simp [lastHandle]
  | cons c cs ih =>
    obtain ⟨st₁, hrun₁, hm₁, _⟩ := applyCall_step E st c hm
    simp only [runCalls, hrun₁, Except.bind] at hrun
    have h₁ := applyCall_registered E st st₁ c jt hm hrun₁
    have h₂ := ih st₁ hm₁ hrun
    rw [h₂]
    cases c with
    | handle jt' r options =>
      simp only [lastHandle]
      cases hl : lastHandle jt cs with
      | some h => simp
      | none =>
        simp only [h₁]
        by_cases hj : jt' = jt <;> simp [hj]
    | schedule job =>
      simp only [lastHandle]
      cases hl : lastHandle jt cs with
      | some h => simp
      | none => simp [h₁]

/-- Once a job-type has a worker, a sequence of calls keeps that worker, writes the
entry no more and allocates no worker for the job-type. -/
theorem runCalls_keeps_worker (E : Env R) (jt : String) (w : worker R) (cs : List (Call R))
    (st : State R) (hm : st.sched.mutex = false)
    (hw : goLookup st.sched.workers jt = some w) :
    ∃ st', runCalls E st cs = .ok st' ∧ goLookup st'.sched.workers jt = some w ∧
      writesOf jt st'.trace = writesOf jt st.trace ∧ builtFor E jt st cs = 0 := by
  induction cs generalizing st with
  | nil => exact ⟨st, rfl, hw, rfl, rfl⟩
  | cons c cs ih =>
    obtain ⟨st₁, hrun₁, hm₁, hkeep, _, hbuilt⟩ := applyCall_step E st c hm
    obtain ⟨hw₁, hwr₁⟩ := hkeep jt w hw
    obtain ⟨st', hrun', hw', hwr', hb'⟩ := ih st₁ hm₁ hw₁
    refine ⟨st', by simp [runCalls, hrun₁, Except.bind, hrun'], hw', by rw [hwr', hwr₁], ?_⟩
    simp only [builtFor, hrun₁, hb', Nat.add_zero]
    cases c with
    | handle jt' r options => rfl
    | schedule job =>
      by_cases hj : job.jobType = jt
      · have := hbuilt job rfl (by rw [hj, hw]; rfl)
        simp [hj, this]
      · simp [hj]

/-- In a run from a state where every job-type without a worker has no write of its
entry and every job-type has at most one, the same holds at the end. -/
theorem runCalls_writes (E : Env R) (cs : List (Call R)) (st : State R)
    (hm : st.sched.mutex = false)
    (hinv : ∀ k, (goLookup st.sched.workers k = none → writesOf k st.trace = 0) ∧
      writesOf k st.trace ≤ 1) :
    ∃ st', runCalls E st cs = .ok st' ∧ st'.sched.mutex = false ∧
      ∀ k, (goLookup st'.sched.workers k = none → writesOf k st'.trace = 0) ∧
        writesOf k st'.trace ≤ 1 := by
  induction cs generalizing st with
  | nil => exact ⟨st, rfl, hm, hinv⟩
  | cons c cs ih =>
    obtain ⟨st₁, hrun₁, hm₁, hkeep, hnew, _⟩ := applyCall_step E st c hm
    have hinv₁ : ∀ k, (goLookup st₁.sched.workers k = none → writesOf k st₁.trace = 0) ∧
        writesOf k st₁.trace ≤ 1 := by
      intro k
      cases hk : goLookup st.sched.workers k with
      | some w =>
        obtain ⟨hk₁, hwr₁⟩ := hkeep k w hk
        refine ⟨fun hnone => ?_, by rw [hwr₁]; exact (hinv k).2⟩
        rw [hk₁] at hnone
        exact Option.noConfusion hnone
      | none =>
        have h0 := (hinv k).1 hk
        rcases hnew k hk with ⟨hk₁, hwr₁⟩ | ⟨hk₁, hwr₁⟩
        · exact ⟨fun _ => by rw [hwr₁, h0], by rw [hwr₁, h0]; exact Nat.zero_le 1⟩
        · refine ⟨fun hnone => ?_, by rw [hwr₁, h0]⟩
          rw [hnone] at hk₁
          exact Bool.noConfusion hk₁
    obtain ⟨st', hrun', hm', hinv'⟩ := ih st₁ hm₁ hinv₁
    exact ⟨st', by simp [runCalls, hrun₁, Except.bind, hrun'], hm', hinv'⟩

/-- A `schedule` call for a job-type without worker but with handler `h`: what it looks
up, constructs and starts, and what it does when the start succeeds. -/
theorem schedule_attempt (E : Env R) (st : State R) (job : Job) (h : handler R)
    (hm : st.sched.mutex = false)
    (hw : goLookup st.sched.workers job.jobType = none)
    (hh : goLookup st.sched.registered job.jobType = some h) :
    ∃ r st' seg, schedule E st job = .ok (r, st') ∧
      st'.trace = st.trace ++ seg ∧
      seg.filter Event.isLookup = [.getHandler job.jobType, .registeredRead job.jobType] ∧
      seg.filter Event.isConstruct = [.newGoWorker ⟨st.built, h.runnable, h.options⟩] ∧
      seg.filter Event.isStart = [.start ⟨st.built, h.runnable, h.options⟩] ∧
      (E.start ⟨st.built, h.runnable, h.options⟩ = none →
        goLookup st'.sched.workers job.jobType = some ⟨st.built, h.runnable, h.options⟩ ∧
        r = E.workerSchedule ⟨st.built, h.runnable, h.options⟩ job ∧
        seg.filter Event.isDelegate =
          [.workerSchedule ⟨st.built, h.runnable, h.options⟩ job]) := by
  have hreg : st.sched.registered ≠ none := by
    intro hnone
    rw [hnone] at hh
    exact Option.noConfusion hh
  cases hs : E.start ⟨st.built, h.runnable, h.options⟩ with
  | some err =>
    rw [schedule_startFailed E st job h err hm hw hh hs]
    refine ⟨_, _, _, rfl, by simp only [List.append_assoc]; rfl, ?_, ?_, ?_, by simp⟩
    · cases hrs : st.sched.registered with
      | none => exact absurd hrs hreg
      | some es =>
        cases hws : st.sched.workers <;>
          simp [lookupWorkerEvents, getHandlerEvents, hrs, hws, List.filter, Event.isLookup]
    · cases hrs : st.sched.registered <;> cases hws : st.sched.workers <;>
        simp [lookupWorkerEvents, getHandlerEvents, hrs, hws, List.filter, Event.isConstruct]
    · cases hrs : st.sched.registered <;> cases hws : st.sched.workers <;>
        simp [lookupWorkerEvents, getHandlerEvents, hrs, hws, List.filter, Event.isStart]
  | none =>
    rw [schedule_created E st job h hm hw hh hs]
    refine ⟨_, _, _, rfl, by simp only [List.append_assoc]; rfl, ?_, ?_, ?_, ?_⟩
    · cases hrs : st.sched.registered with
      | none => exact absurd hrs hreg
      | some es =>
        cases hws : st.sched.workers <;>
          simp [lookupWorkerEvents, getHandlerEvents, hrs, hws, List.filter, Event.isLookup]
    · cases hrs : st.sched.registered <;> cases hws : st.sched.workers <;>
        simp [lookupWorkerEvents, getHandlerEvents, hrs, hws, List.filter, Event.isConstruct]
    · cases hrs : st.sched.registered <;> cases hws : st.sched.workers <;>
        simp [lookupWorkerEvents, getHandlerEvents, hrs, hws, List.filter, Event.isStart]
    · intro _
      refine ⟨by simp [goLookup, mapGet_mapSet_same], rfl, ?_⟩
      cases hrs : st.sched.registered <;> cases hws : st.sched.workers <;>
        simp [lookupWorkerEvents, getHandlerEvents, hrs, hws, List.filter, Event.isDelegate]

/-! ## Threads -/

theorem runThread_succ (E : Env R) (n : Nat) (st : State R) (t : Thread R) :
    runThread E (n + 1) st t = (stepThread E st t).bind fun p => runThread E n p.1 p.2 := by
  simp only [runThread, bind]

theorem runThread_step (E : Env R) (n : Nat) (st st' : State R) (t t' : Thread R)
    (h : stepThread E st t = .ok (st', t')) :
    runThread E (n + 1) st t = runThread E n st' t' := by
  rw [runThread_succ, h]
  rfl

theorem runThread_returned (E : Env R) (n : Nat) (st : State R) (job : Job) (r : Result) :
    runThread E n st ⟨job, .returned r⟩ = .ok (st, ⟨job, .returned r⟩) := by
  induction n with
  | zero => rfl
  | succ n ih =>
    rw [runThread_step E n st st ⟨job, .returned r⟩ ⟨job, .returned r⟩ rfl]
    exact ih

/-- A thread that runs alone through `schedule(job)` returns after at most thirteen
steps, with the result and in the state that the method `schedule` gives. -/
theorem runThread_schedule (E : Env R) (st : State R) (job : Job)
    (hm : st.sched.mutex = false) :
    ∃ r st', schedule E st job = .ok (r, st') ∧
      ∀ n, runThread E (n + 13) st (Thread.call job) = .ok (st', ⟨job, .returned r⟩) := by
  cases hw : goLookup st.sched.workers job.jobType with
  | some w =>
    refine ⟨_, _, schedule_existing E st job w hm hw, fun n => ?_⟩
    obtain ⟨⟨reg, ws, mu⟩, built, trace⟩ := st
    simp only at hm hw
    subst hm
    cases ws with
    | none => simp [goLookup] at hw
    | some es =>
      simp only [goLookup] at hw
      simp only [Thread.call]
      iterate 5 rw [runThread_step E _ _ _ _ _ (by
        simp only [stepThread, ensureWorkers, Lock, Unlock, readWorkers, delegate, State.emit,
          goLookup, hw, bind, Except.bind, pure, Except.pure, Bool.false_eq_true,
          eq_self_iff_true, if_true, if_false]
        rfl)]
      rw [runThread_returned]
      simp [lookupWorkerEvents]
  | none =>
    cases hh : goLookup st.sched.registered job.jobType with
    | none =>
      refine ⟨_, _, schedule_noHandler E st job hm hw hh, fun n => ?_⟩
      obtain ⟨⟨reg, ws, mu⟩, built, trace⟩ := st
      simp only at hm hw hh
      subst hm
      cases ws <;> cases reg
      all_goals try simp only [goLookup] at hw
      all_goals try simp only [goLookup] at hh
      all_goals simp only [Thread.call]
      all_goals iterate 8 rw [runThread_step E _ _ _ _ _ (by
        simp only [stepThread, ensureWorkers, Lock, Unlock, readWorkers, failedResult,
          getHandlerBody, State.emit, goLookup, mapGet, *, bind, Except.bind, pure,
          Except.pure, Bool.false_eq_true, eq_self_iff_true, if_true, if_false]
        rfl)]
      all_goals rw [runThread_returned]
      all_goals simp [lookupWorkerEvents, getHandlerEvents, goEntries, newResult,
        Result.sendErr]
    | some h =>
      have hreg : st.sched.registered ≠ none := by
        intro hnone
        rw [hnone] at hh
        exact Option.noConfusion hh
      cases hs : E.start ⟨st.built, h.runnable, h.options⟩ with
      | some err =>
        refine ⟨_, _, schedule_startFailed E st job h err hm hw hh hs, fun n => ?_⟩
        obtain ⟨⟨reg, ws, mu⟩, built, trace⟩ := st
        simp only at hm hw hh hs hreg
        subst hm
        cases reg with
        | none => exact absurd rfl hreg
        | some rs =>
          simp only [goLookup] at hh
          cases ws
          all_goals try simp only [goLookup] at hw
          all_goals simp only [Thread.call]
          all_goals iterate 10 rw [runThread_step E _ _ _ _ _ (by
            simp only [stepThread, ensureWorkers, Lock, Unlock, readWorkers, failedResult,
              getHandlerBody, newGoWorker, State.emit, goLookup, mapGet, *, bind,
              Except.bind, pure, Except.pure, Bool.false_eq_true, eq_self_iff_true, if_true,
              if_false]
            rfl)]
          all_goals rw [runThread_returned]
          all_goals simp [lookupWorkerEvents, getHandlerEvents, goEntries, newResult,
            Result.sendErr]
      | none =>
        refine ⟨_, _, schedule_created E st job h hm hw hh hs, fun n => ?_⟩
        obtain ⟨⟨reg, ws, mu⟩, built, trace⟩ := st
        simp only at hm hw hh hs hreg
        subst hm
        cases reg with
        | none => exact absurd rfl hreg
        | some rs =>
          simp only [goLookup] at hh
          cases ws
          all_goals try simp only [goLookup] at hw
          all_goals simp only [Thread.call]
          all_goals iterate 13 rw [runThread_step E _ _ _ _ _ (by
            simp only [stepThread, ensureWorkers, Lock, Unlock, readWorkers, delegate,
              getHandlerBody, newGoWorker, writeWorkers, goStore, State.emit, goLookup,
              mapGet, *, bind, Except.bind, pure, Except.pure, Bool.false_eq_true,
              eq_self_iff_true, if_true, if_false]
            rfl)]
          all_goals rw [runThread_returned]
          all_goals simp [lookupWorkerEvents, getHandlerEvents, goEntries]

/-! ## Options, locking, routing and groups -/

theorem applyOptions_eq_specConfig (options : List OptionFn) :
    applyOptions options = specConfig options := by
  simp [applyOptions, specConfig, List.foldr_reverse]

theorem locked_call_blocks (E : Env R) (st : State R) (job : Job) (jt : String) (rn : R)
    (options : List OptionFn) (hm : st.sched.mutex = true) :
    schedule E st job = .error .deadlock ∧ handle st jt rn options = .error .deadlock ∧
      getHandler st jt = .error .deadlock := by
  obtain ⟨⟨reg, ws, mu⟩, built, trace⟩ := st
  simp only at hm
  subst hm
  refine ⟨?_, ?_, ?_⟩
  · cases ws <;>
      simp [schedule, ensureWorkers, Lock, State.emit, bind, Except.bind]
  · simp [handle, Lock, bind, Except.bind]
  · simp [getHandler, Lock, State.emit, bind, Except.bind]

theorem delegatedTo_append_concat (tr mid : List (Event R)) (w : worker R) (job : Job) :
    delegatedTo (tr ++ (mid ++ [.workerSchedule w job])) = some (w, job) := by
  rw [← List.append_assoc]
  simp [delegatedTo, List.getLast?_concat]

theorem delegatedTo_append_sendErr (tr mid : List (Event R)) (e : GoError) :
    delegatedTo (tr ++ (mid ++ [.sendErr e])) = none := by
  rw [← List.append_assoc]
  simp [delegatedTo, List.getLast?_concat]

/-- Where `submitAndWait` sends a job whose job-type is registered with runnable `rn`,
when every worker starts and the worker of the job-type, if there is one, was built
from `rn`: the outcome is the execution of `rn`, and the worker table gains at most a
worker built from `rn` under the job-type. -/
theorem submitAndWait_routed (E : Env R) (exec : Execute R) (st : State R) (store : Store)
    (job : Job) (h : handler R)
    (hm : st.sched.mutex = false) (hstart : ∀ w, E.start w = none)
    (hreg : goLookup st.sched.registered job.jobType = some h)
    (hwk : ∀ w, goLookup st.sched.workers job.jobType = some w → w.runnable = h.runnable) :
    ∃ st', submitAndWait E exec st store job =
        .ok (completed (exec h.runnable job.data store).1, st',
          (exec h.runnable job.data store).2) ∧
      st'.sched.mutex = false ∧ st'.sched.registered = st.sched.registered ∧
      (∀ k w, goLookup st'.sched.workers k = some w →
        goLookup st.sched.workers k = some w ∨ (k = job.jobType ∧ w.runnable = h.runnable)) := by
  cases hw : goLookup st.sched.workers job.jobType with
  | some w =>
    have hsch := schedule_existing E st job w hm hw
    have hwr := hwk w hw
    refine ⟨{ sched := st.sched, built := st.built,
              trace := st.trace ++ lookupWorkerEvents st job.jobType ++
                [.workerSchedule w job] }, ?_, hm, rfl, fun k w' hk => Or.inl hk⟩
    simp only [submitAndWait, hsch, bind, Except.bind, List.append_assoc,
      delegatedTo_append_concat, pure, Except.pure, hwr]
  | none =>
    have hsch := schedule_created E st job h hm hw hreg (hstart _)
    refine ⟨{ sched := { registered := st.sched.registered,
                         workers := some (mapSet job.jobType ⟨st.built, h.runnable, h.options⟩
                           (goEntries st.sched.workers)),
                         mutex := false },
              built := st.built + 1,
              trace := st.trace ++ lookupWorkerEvents st job.jobType ++
                getHandlerEvents st job.jobType ++
                [.newGoWorker ⟨st.built, h.runnable, h.options⟩,
                 .start ⟨st.built, h.runnable, h.options⟩,
                 .lock,
                 .workersWrite job.jobType ⟨st.built, h.runnable, h.options⟩,
                 .unlock,
                 .workerSchedule ⟨st.built, h.runnable, h.options⟩ job] }, ?_, rfl, rfl, ?_⟩
    · simp only [submitAndWait, hsch, bind, Except.bind, List.append_assoc, pure, Except.pure]
      rw [show ∀ a b c d e f : Event R, [a, b, c, d, e, f] = [a, b, c, d, e] ++ [f] from
        fun _ _ _ _ _ _ => rfl, ← List.append_assoc (getHandlerEvents st job.jobType),
        ← List.append_assoc (lookupWorkerEvents st job.jobType), delegatedTo_append_concat]
    · intro k w' hk
      by_cases hkj : k = job.jobType
      · subst hkj
        right
        simp only [goLookup, mapGet_mapSet_same] at hk
        cases hk
        exact ⟨rfl, rfl⟩
      · left
        simpa [goLookup_eq_mapGet, goEntries, mapGet_mapSet_other _ _ _ _ hkj] using hk

theorem foldl_add_members (rs : List Result) (g : Group) :
    (rs.foldl Group.add g).members = g.members ++ rs := by
  induction rs generalizing g with
  | nil => simp
  | cons r rs ih => simp [List.foldl, ih, Group.add]

theorem findSome_err_eq_none (rs : List Result)
    (h : ∀ r ∈ rs, ∃ v, r.state = .fulfilled v) : rs.findSome? Result.err = none := by
  induction rs with
  | nil => rfl
  | cons r rs ih =>
    obtain ⟨v, hv⟩ := h r (List.mem_cons_self r rs)
    have hr : r.err = none := by simp [Result.err, hv]
    simp only [List.findSome?, hr]
    exact ih fun r' hr' => h r' (List.mem_cons_of_mem r hr')

theorem findSome_err_isSome (rs : List Result) (h : ∃ r ∈ rs, ∃ e, r.state = .failed e) :
    ∃ e, rs.findSome? Result.err = some e := by
  induction rs with
  | nil =>
    obtain ⟨r, hr, _⟩ := h
    cases hr
  | cons r rs ih =>
    cases hre : r.err with
    | some e => exact ⟨e, by simp [List.findSome?, hre]⟩
    | none =>
      simp only [List.findSome?, hre]
      apply ih
      obtain ⟨r', hr', e, he⟩ := h
      rcases List.mem_cons.mp hr' with heq | hmem
      · subst heq
        simp [Result.err, he] at hre
      · exact ⟨r', hmem, e, he⟩

theorem any_isPending_eq_false (rs : List Result) (h : ∀ r ∈ rs, r.state ≠ .pending) :
    rs.any Result.isPending = false := by
  rw [List.any_eq_false]
  intro r hr
  have := h r hr
  cases hs : r.state with
  | pending => exact absurd hs this
  | fulfilled v => simp [Result.isPending, hs]
  | failed e => simp [Result.isPending, hs]

/-! ## Keys of the maps, starts of a call -/

theorem mapGet_mem (k : String) (v : V) (m : List (String × V)) (h : mapGet k m = some v) :
    (k, v) ∈ m := by
  induction m with
  | nil => simp [mapGet] at h
  | cons e m ih =>
    obtain ⟨k₀, v₀⟩ := e
    by_cases hk : k₀ = k
    · simp only [mapGet, hk, if_true] at h
      cases h
      simp [hk]
    · simp only [mapGet, hk, if_false] at h
      exact List.mem_cons_of_mem _ (ih h)

/-- What one call does to the keys of the two maps: none is lost, and a job-type gains a
worker only when it has a handler. -/
theorem applyCall_keys (E : Env R) (st : State R) (c : Call R) (hm : st.sched.mutex = false) :
    ∃ st', applyCall E st c = .ok st' ∧ st'.sched.mutex = false ∧
      (∀ k, (goLookup st.sched.registered k).isSome → (goLookup st'.sched.registered k).isSome) ∧
      (∀ k, (goLookup st.sched.workers k).isSome → (goLookup st'.sched.workers k).isSome) ∧
      (∀ k, (goLookup st'.sched.workers k).isSome →
        (goLookup st.sched.workers k).isSome ∨ (goLookup st.sched.registered k).isSome) := by
  obtain ⟨st', hrun, hm', hkeep, _, _⟩ := applyCall_step E st c hm
  refine ⟨st', hrun, hm', ?_, ?_, ?_⟩
  · intro k hk
    have hreg := applyCall_registered E st st' c k hm hrun
    rw [hreg]
    cases c with
    | handle jt r options =>
      by_cases hj : jt = k
      · simp [hj]
      · simpa [hj] using hk
    | schedule job => exact hk
  · intro k hk
    cases hl : goLookup st.sched.workers k with
    | none => rw [hl] at hk; exact Bool.noConfusion hk
    | some w => rw [(hkeep k w hl).1]; rfl
  · intro k hk
    cases c with
    | handle jt r options =>
      simp only [applyCall] at hrun
      rw [handle_eq st jt r options hm] at hrun
      cases hrun
      exact Or.inl hk
    | schedule job =>
      simp only [applyCall] at hrun
      cases hw : goLookup st.sched.workers job.jobType with
      | some w =>
        rw [schedule_existing E st job w hm hw] at hrun
        cases hrun
        exact Or.inl hk
      | none =>
        cases hh : goLookup st.sched.registered job.jobType with
        | none =>
          rw [schedule_noHandler E st job hm hw hh] at hrun
          cases hrun
          left
          simpa [goLookup_eq_mapGet, goEntries] using hk
        | some h =>
          cases hs : E.start ⟨st.built, h.runnable, h.options⟩ with
          | some err =>
            rw [schedule_startFailed E st job h err hm hw hh hs] at hrun
            cases hrun
            left
            simpa [goLookup_eq_mapGet, goEntries] using hk
          | none =>
            rw [schedule_created E st job h hm hw hh hs] at hrun
            cases hrun
            by_cases hkj : k = job.jobType
            · right
              rw [hkj, hh]
              rfl
            · left
              simpa [goLookup_eq_mapGet, goEntries, mapGet_mapSet_other _ _ _ _ hkj] using hk

/-- Over a sequence of calls no map loses a key, and the job-types with a worker stay
among the job-types with a handler. -/
theorem runCalls_keys (E : Env R) (cs : List (Call R)) (st : State R)
    (hm : st.sched.mutex = false)
    (hinv : ∀ k, (goLookup st.sched.workers k).isSome → (goLookup st.sched.registered k).isSome) :
    ∃ st', runCalls E st cs = .ok st' ∧ st'.sched.mutex = false ∧
      (∀ k, (goLookup st'.sched.workers k).isSome → (goLookup st'.sched.registered k).isSome) ∧
      (∀ k, (goLookup st.sched.registered k).isSome → (goLookup st'.sched.registered k).isSome) ∧
      (∀ k, (goLookup st.sched.workers k).isSome → (goLookup st'.sched.workers k).isSome) := by
  induction cs generalizing st with
  | nil => exact ⟨st, rfl, hm, hinv, fun _ h => h, fun _ h => h⟩
  | cons c cs ih =>
    obtain ⟨st₁, hrun₁, hm₁, hreg₁, hws₁, hnew₁⟩ := applyCall_keys E st c hm
    have hinv₁ : ∀ k, (goLookup st₁.sched.workers k).isSome →
        (goLookup st₁.sched.registered k).isSome := by
      intro k hk
      rcases hnew₁ k hk with hold | hreg
      · exact hreg₁ k (hinv k hold)
      · exact hreg₁ k hreg
    obtain ⟨st', hrun', hm', hinv', hreg', hws'⟩ := ih st₁ hm₁ hinv₁
    exact ⟨st', by simp [runCalls, hrun₁, Except.bind, hrun'], hm', hinv',
      fun k hk => hreg' k (hreg₁ k hk), fun k hk => hws' k (hws₁ k hk)⟩

/-! ## The method with its receiver -/

/-- The method with its receiver agrees with the method without it: from a state with a
free mutex, `scheduleRecv` at the pointer `s` gives the result and the state that
`schedule` gives in the environment where workers are started with `s.schedule`; it
makes one `start` call, for the worker just allocated and with the method value of `s`,
when the job-type has a handler and no worker, and none otherwise. -/
theorem scheduleRecv_eq (E : EnvAt R) (s : Addr) (st : State R) (job : Job)
    (hm : st.sched.mutex = false) :
    ∃ r st', schedule (E.toEnv ⟨s⟩) st job = .ok (r, st') ∧
      ((∃ h, goLookup st.sched.workers job.jobType = none ∧
          goLookup st.sched.registered job.jobType = some h ∧
          scheduleRecv E s st job =
            .ok (r, st', [⟨⟨st.built, h.runnable, h.options⟩, ⟨s⟩⟩])) ∨
        (((goLookup st.sched.workers job.jobType).isSome ∨
            goLookup st.sched.registered job.jobType = none) ∧
          scheduleRecv E s st job = .ok (r, st', []))) := by
  cases hw : goLookup st.sched.workers job.jobType with
  | some w =>
    refine ⟨_, _, schedule_existing (E.toEnv ⟨s⟩) st job w hm hw, Or.inr ⟨Or.inl rfl, ?_⟩⟩
    obtain ⟨⟨reg, ws, mu⟩, built, trace⟩ := st
    simp only at hm hw
    subst hm
    cases ws with
    | none => simp [goLookup] at hw
    | some es =>
      simp [scheduleRecv, ensureWorkers, Lock, Unlock, readWorkers, delegate, State.emit, hw,
        lookupWorkerEvents, bind, Except.bind, pure, Except.pure]
  | none =>
    cases hh : goLookup st.sched.registered job.jobType with
    | none =>
      refine ⟨_, _, schedule_noHandler (E.toEnv ⟨s⟩) st job hm hw hh, Or.inr ⟨Or.inr rfl, ?_⟩⟩
      obtain ⟨⟨reg, ws, mu⟩, built, trace⟩ := st
      simp only at hm hw hh
      subst hm
      cases ws <;> cases reg <;>
        simp_all [scheduleRecv, ensureWorkers, Lock, Unlock, readWorkers, failedResult,
          State.emit, lookupWorkerEvents, getHandlerEvents, getHandler, getHandlerBody,
          goLookup, goEntries, mapGet, newResult, Result.sendErr, bind, Except.bind, pure,
          Except.pure]
    | some h =>
      cases hs : E.start ⟨st.built, h.runnable, h.options⟩ ⟨s⟩ with
      | some err =>
        refine ⟨_, _, schedule_startFailed (E.toEnv ⟨s⟩) st job h err hm hw hh hs,
          Or.inl ⟨h, rfl, rfl, ?_⟩⟩
        obtain ⟨⟨reg, ws, mu⟩, built, trace⟩ := st
        simp only at hm hw hh hs
        subst hm
        cases ws <;> cases reg <;>
          simp_all [scheduleRecv, ensureWorkers, Lock, Unlock, readWorkers, failedResult,
            State.emit, lookupWorkerEvents, getHandlerEvents, getHandler, getHandlerBody,
            goLookup, goEntries, mapGet, newGoWorker, newResult, Result.sendErr, bind,
            Except.bind, pure, Except.pure]
      | none =>
        refine ⟨_, _, schedule_created (E.toEnv ⟨s⟩) st job h hm hw hh hs,
          Or.inl ⟨h, rfl, rfl, ?_⟩⟩
        obtain ⟨⟨reg, ws, mu⟩, built, trace⟩ := st
        simp only at hm hw hh hs
        subst hm
        cases ws <;> cases reg <;>
          simp_all [scheduleRecv, ensureWorkers, Lock, Unlock, readWorkers, delegate,
            State.emit, lookupWorkerEvents, getHandlerEvents, getHandler, getHandlerBody,
            goLookup, goEntries, mapGet, newGoWorker, writeWorkers, goStore, bind,
            Except.bind, pure, Except.pure]

/-- The environment sees which function value `schedule` hands to `start`: in
`demoEnvAt` a worker starts only when handed the method value of the scheduler at
address 0, and the same call fails to start its worker when it is made on a scheduler at
address 1, which hands over its own method value. -/
theorem callSchedule_hands_over_receiver :
    (∃ r heap' calls, callSchedule demoEnvAt demoHeap 0 demoJob = .ok (r, heap', calls) ∧
      r.err = none ∧ calls = [⟨⟨0, 7, defaultOpts⟩, ⟨0⟩⟩]) ∧
    (∃ r heap' calls,
      callSchedule demoEnvAt (Function.update demoHeap 1 registeredState) 1 demoJob =
        .ok (r, heap', calls) ∧
      r.err.map GoError.text =
        some "failed start worker for jobType \"echo\": wrong dispatcher" ∧
      calls = [⟨⟨0, 7, defaultOpts⟩, ⟨1⟩⟩]) :=
  ⟨⟨_, _, _, rfl, by decide, by decide⟩, ⟨_, _, _, rfl, by decide, by decide⟩⟩

end Lemmas

/-! ## Claims -/

section Claims

variable {R : Type}

/-- C1: a job whose job-type has neither a worker in the worker table nor a handler in
the registry gets back from `schedule` a result that is already failed when it is
returned: it carries the error of line 44 and no value. -/
theorem schedule_unregistered_failed (E : Env R) (st : State R) (job : Job)
    (hm : st.sched.mutex = false)
    (hw : goLookup st.sched.workers job.jobType = none)
    (hh : goLookup st.sched.registered job.jobType = none) :
    ∃ r st', schedule E st job = .ok (r, st') ∧
      r.state = .failed (noHandlerError E job.jobType) ∧
      r.err = some (noHandlerError E job.jobType) ∧ r.value = none := by
  rw [schedule_noHandler E st job hm hw hh]
  exact ⟨_, _, rfl, rfl, rfl, rfl⟩

theorem schedule_unregistered_failed_witness :
    ∃ r st', schedule demoEnv initState demoJob = .ok (r, st') ∧
      r.state = .failed (noHandlerError demoEnv demoJob.jobType) ∧
      r.err = some (noHandlerError demoEnv demoJob.jobType) ∧ r.value = none :=
  schedule_unregistered_failed demoEnv initState demoJob rfl rfl rfl

/-- C2: when the worker table already holds a worker `w` for the job-type of the job,
`schedule` returns exactly the result of `w.schedule(job)` for that same job; the call
looks up no handler, constructs no worker, starts no worker, delegates once, and leaves
the scheduler (registry, worker table) as it was. -/
theorem schedule_existing_worker (E : Env R) (st : State R) (job : Job) (w : worker R)
    (hm : st.sched.mutex = false)
    (hw : goLookup st.sched.workers job.jobType = some w) :
    ∃ st' seg, schedule E st job = .ok (E.workerSchedule w job, st') ∧
      st'.sched = st.sched ∧ st'.built = st.built ∧
      st'.trace = st.trace ++ seg ∧
      (∀ e ∈ seg, e.isLookup = false ∧ e.isConstruct = false ∧ e.isStart = false) ∧
      seg.filter Event.isDelegate = [.workerSchedule w job] := by
  rw [schedule_existing E st job w hm hw]
  refine ⟨_, lookupWorkerEvents st job.jobType ++ [.workerSchedule w job], rfl, rfl, rfl,
    by simp, ?_, ?_⟩
  · cases hws : st.sched.workers <;>
      simp [lookupWorkerEvents, hws, Event.isLookup, Event.isConstruct, Event.isStart]
  · cases hws : st.sched.workers <;>
      simp [lookupWorkerEvents, hws, List.filter, Event.isDelegate]

theorem schedule_existing_worker_witness :
    ∃ st' seg, schedule demoEnv startedState demoJob =
        .ok (demoEnv.workerSchedule ⟨0, 7, defaultOpts⟩ demoJob, st') ∧
      st'.sched = startedState.sched ∧ st'.built = startedState.built ∧
      st'.trace = startedState.trace ++ seg ∧
      (∀ e ∈ seg, e.isLookup = false ∧ e.isConstruct = false ∧ e.isStart = false) ∧
      seg.filter Event.isDelegate = [.workerSchedule ⟨0, 7, defaultOpts⟩ demoJob] :=
  schedule_existing_worker demoEnv startedState demoJob ⟨0, 7, defaultOpts⟩ rfl (by decide)

/-- C3: when the job-type has no worker but has a registered handler and the start of
the new worker succeeds, `schedule` leaves the worker table equal to the old table with
the job-type mapped to the newly constructed worker (every other key reads as before),
and returns the result of that worker's `schedule` for the original job. -/
theorem schedule_records_new_worker (E : Env R) (st : State R) (job : Job) (h : handler R)
    (hm : st.sched.mutex = false)
    (hw : goLookup st.sched.workers job.jobType = none)
    (hh : goLookup st.sched.registered job.jobType = some h)
    (hs : E.start ⟨st.built, h.runnable, h.options⟩ = none) :
    ∃ st' seg, schedule E st job =
        .ok (E.workerSchedule ⟨st.built, h.runnable, h.options⟩ job, st') ∧
      st'.sched.workers =
        some (mapSet job.jobType ⟨st.built, h.runnable, h.options⟩
          (goEntries st.sched.workers)) ∧
      goLookup st'.sched.workers job.jobType = some ⟨st.built, h.runnable, h.options⟩ ∧
      (∀ k, k ≠ job.jobType → goLookup st'.sched.workers k = goLookup st.sched.workers k) ∧
      st'.trace = st.trace ++ seg ∧
      seg.filter Event.isConstruct = [.newGoWorker ⟨st.built, h.runnable, h.options⟩] ∧
      seg.filter Event.isDelegate =
        [.workerSchedule ⟨st.built, h.runnable, h.options⟩ job] := by
  rw [schedule_created E st job h hm hw hh hs]
  refine ⟨_, _, rfl, rfl, ?_, ?_, by simp only [List.append_assoc]; rfl, ?_, ?_⟩
  · simp [goLookup, mapGet_mapSet_same]
  · intro k hk
    simp [goLookup_eq_mapGet, goEntries, mapGet_mapSet_other _ _ _ _ hk]
  · cases hws : st.sched.workers <;> cases hrs : st.sched.registered <;>
      simp [lookupWorkerEvents, getHandlerEvents, hws, hrs, List.filter, Event.isConstruct]
  · cases hws : st.sched.workers <;> cases hrs : st.sched.registered <;>
      simp [lookupWorkerEvents, getHandlerEvents, hws, hrs, List.filter, Event.isDelegate]

theorem schedule_records_new_worker_witness :
    ∃ st' seg, schedule demoEnv registeredState demoJob =
        .ok (demoEnv.workerSchedule ⟨0, 7, defaultOpts⟩ demoJob, st') ∧
      st'.sched.workers =
        some (mapSet demoJob.jobType ⟨0, 7, defaultOpts⟩
          (goEntries registeredState.sched.workers)) ∧
      goLookup st'.sched.workers demoJob.jobType = some ⟨0, 7, defaultOpts⟩ ∧
      (∀ k, k ≠ demoJob.jobType →
        goLookup st'.sched.workers k = goLookup registeredState.sched.workers k) ∧
      st'.trace = registeredState.trace ++ seg ∧
      seg.filter Event.isConstruct = [.newGoWorker ⟨0, 7, defaultOpts⟩] ∧
      seg.filter Event.isDelegate = [.workerSchedule ⟨0, 7, defaultOpts⟩ demoJob] :=
  schedule_records_new_worker demoEnv registeredState demoJob ⟨7, defaultOpts⟩ rfl rfl
    (by decide) rfl

/-- C4: when `schedule` creates a worker for a job-type, the one worker it constructs
(and starts) is built from exactly the runnable and the options of the handler stored
in the registry for that job-type at that moment; and whenever the calls made so far
contain a `handle` call for the job-type, the stored handler is the one set by the last
of them. -/
theorem schedule_builds_from_stored_handler (E : Env R) (st₀ st : State R)
    (cs : List (Call R)) (job : Job) (h : handler R)
    (hm : st₀.sched.mutex = false)
    (hrun : runCalls E st₀ cs = .ok st)
    (hw : goLookup st.sched.workers job.jobType = none)
    (hh : goLookup st.sched.registered job.jobType = some h) :
    (∀ h', lastHandle job.jobType cs = some h' → h' = h) ∧
    ∃ r st' seg, schedule E st job = .ok (r, st') ∧ st'.trace = st.trace ++ seg ∧
      seg.filter Event.isConstruct = [.newGoWorker ⟨st.built, h.runnable, h.options⟩] ∧
      seg.filter Event.isStart = [.start ⟨st.built, h.runnable, h.options⟩] := by
  have hm' : st.sched.mutex = false := by
    obtain ⟨st₁, hrun₁, hm₁⟩ := runCalls_ok E cs st₀ hm
    rw [hrun] at hrun₁
    cases hrun₁
    exact hm₁
  refine ⟨?_, ?_⟩
  · intro h' hl
    have := runCalls_registered E job.jobType cs st₀ st hm hrun
    rw [hl, hh] at this
    exact (Option.some.inj this).symm
  · cases hs : E.start ⟨st.built, h.runnable, h.options⟩ with
    | some err =>
      rw [schedule_startFailed E st job h err hm' hw hh hs]
      refine ⟨_, _, _, rfl, by simp only [List.append_assoc]; rfl, ?_, ?_⟩
      · cases hws : st.sched.workers <;> cases hrs : st.sched.registered <;>
          simp [lookupWorkerEvents, getHandlerEvents, hws, hrs, List.filter, Event.isConstruct]
      · cases hws : st.sched.workers <;> cases hrs : st.sched.registered <;>
          simp [lookupWorkerEvents, getHandlerEvents, hws, hrs, List.filter, Event.isStart]
    | none =>
      rw [schedule_created E st job h hm' hw hh hs]
      refine ⟨_, _, _, rfl, by simp only [List.append_assoc]; rfl, ?_, ?_⟩
      · cases hws : st.sched.workers <;> cases hrs : st.sched.registered <;>
          simp [lookupWorkerEvents, getHandlerEvents, hws, hrs, List.filter, Event.isConstruct]
      · cases hws : st.sched.workers <;> cases hrs : st.sched.registered <;>
          simp [lookupWorkerEvents, getHandlerEvents, hws, hrs, List.filter, Event.isStart]

theorem schedule_builds_from_stored_handler_witness :
    (∀ h', lastHandle demoJob.jobType registerTwice = some h' → h' = ⟨7, ⟨4⟩⟩) ∧
    ∃ r st' seg, schedule demoEnv registeredTwiceState demoJob = .ok (r, st') ∧
      st'.trace = registeredTwiceState.trace ++ seg ∧
      seg.filter Event.isConstruct = [.newGoWorker ⟨0, 7, ⟨4⟩⟩] ∧
      seg.filter Event.isStart = [.start ⟨0, 7, ⟨4⟩⟩] :=
  schedule_builds_from_stored_handler demoEnv initState registeredTwiceState registerTwice
    demoJob ⟨7, ⟨4⟩⟩ rfl rfl rfl (by decide)

/-- C5: `handle(jt, r, options...)` always succeeds, and afterwards `getHandler(jt)`
returns a handler whose runnable is `r`; a second `handle` for the same `jt` with `r'`
replaces it: `getHandler(jt)` then returns `r'`, and the registry has the same keys as
after the first call, without duplicate when it had none. -/
theorem handle_then_getHandler (st : State R) (jt : String) (r r' : R)
    (options options' : List OptionFn) (hm : st.sched.mutex = false) :
    ∃ st₁, handle st jt r options = .ok st₁ ∧
      (∃ st₂, getHandler st₁ jt = .ok (some ⟨r, applyOptions options⟩, st₂)) ∧
      ∃ st₃, handle st₁ jt r' options' = .ok st₃ ∧
        (∃ st₄, getHandler st₃ jt = .ok (some ⟨r', applyOptions options'⟩, st₄)) ∧
        mapKeys (goEntries st₃.sched.registered) = mapKeys (goEntries st₁.sched.registered) ∧
        ((mapKeys (goEntries st.sched.registered)).Nodup →
          (mapKeys (goEntries st₃.sched.registered)).Nodup) := by
  rw [handle_eq st jt r options hm]
  refine ⟨_, rfl, ?_, ?_⟩
  · rw [getHandler_eq _ jt rfl]
    simp only [goLookup, mapGet_mapSet_same]
    exact ⟨_, rfl⟩
  · rw [handle_eq _ jt r' options' rfl]
    refine ⟨_, rfl, ?_, ?_, ?_⟩
    · rw [getHandler_eq _ jt rfl]
      simp only [goLookup, mapGet_mapSet_same]
      exact ⟨_, rfl⟩
    · simp only [goEntries, Option.getD_some]
      apply mapKeys_mapSet_of_mem
      rw [← mapGet_isSome_iff, mapGet_mapSet_same]
      rfl
    · intro hnd
      simp only [goEntries, Option.getD_some]
      exact mapKeys_mapSet_nodup _ _ _ (mapKeys_mapSet_nodup _ _ _ hnd)

theorem handle_then_getHandler_witness :
    ∃ st₁, handle startedState "echo" 8 [] = .ok st₁ ∧
      (∃ st₂, getHandler st₁ "echo" = .ok (some ⟨8, applyOptions []⟩, st₂)) ∧
      ∃ st₃, handle st₁ "echo" 9 [fun o => { o with poolSize := 2 }] = .ok st₃ ∧
        (∃ st₄, getHandler st₃ "echo" =
          .ok (some ⟨9, applyOptions [fun o => { o with poolSize := 2 }]⟩, st₄)) ∧
        mapKeys (goEntries st₃.sched.registered) = mapKeys (goEntries st₁.sched.registered) ∧
        ((mapKeys (goEntries startedState.sched.registered)).Nodup →
          (mapKeys (goEntries st₃.sched.registered)).Nodup) :=
  handle_then_getHandler startedState "echo" 8 9 [] [fun o => { o with poolSize := 2 }] rfl

/-- C6: when the job-type has no worker but has a registered handler and the start of
the new worker returns an error, `schedule` returns a result that is already failed,
carrying the start error wrapped by the message of line 53 and no value; the new worker
is not stored (no write of the worker table, the job-type still has no worker), the
registry is as before and the worker table has the entries it had before (and is the
same map value whenever it was allocated before the call). -/
theorem schedule_start_failure (E : Env R) (st : State R) (job : Job) (h : handler R)
    (err : GoError)
    (hm : st.sched.mutex = false)
    (hw : goLookup st.sched.workers job.jobType = none)
    (hh : goLookup st.sched.registered job.jobType = some h)
    (hs : E.start ⟨st.built, h.runnable, h.options⟩ = some err) :
    ∃ r st' seg, schedule E st job = .ok (r, st') ∧
      r.state = .failed
        (.wrapf err ("failed start worker for jobType " ++ E.quote job.jobType)) ∧
      r.err = some (.wrapf err ("failed start worker for jobType " ++ E.quote job.jobType)) ∧
      r.value = none ∧
      st'.sched.registered = st.sched.registered ∧
      goEntries st'.sched.workers = goEntries st.sched.workers ∧
      (st.sched.workers ≠ none → st'.sched.workers = st.sched.workers) ∧
      (∀ k, goLookup st'.sched.workers k = goLookup st.sched.workers k) ∧
      st'.trace = st.trace ++ seg ∧
      (∀ e ∈ seg, ∀ k, e.isWorkersWrite k = false) := by
  rw [schedule_startFailed E st job h err hm hw hh hs]
  refine ⟨_, _, _, rfl, rfl, rfl, rfl, rfl, ?_, ?_, ?_,
    by simp only [List.append_assoc]; rfl, ?_⟩
  · simp [goEntries]
  · cases hws : st.sched.workers <;> simp [goEntries]
  · intro k
    simp [goLookup_eq_mapGet, goEntries]
  · cases hws : st.sched.workers <;> cases hrs : st.sched.registered <;>
      simp [lookupWorkerEvents, getHandlerEvents, hws, hrs, Event.isWorkersWrite]

theorem schedule_start_failure_witness :
    ∃ r st' seg, schedule flakyEnv registeredState demoJob = .ok (r, st') ∧
      r.state = .failed (.wrapf (.errorf "out of memory")
        ("failed start worker for jobType " ++ flakyEnv.quote demoJob.jobType)) ∧
      r.err = some (.wrapf (.errorf "out of memory")
        ("failed start worker for jobType " ++ flakyEnv.quote demoJob.jobType)) ∧
      r.value = none ∧
      st'.sched.registered = registeredState.sched.registered ∧
      goEntries st'.sched.workers = goEntries registeredState.sched.workers ∧
      (registeredState.sched.workers ≠ none →
        st'.sched.workers = registeredState.sched.workers) ∧
      (∀ k, goLookup st'.sched.workers k = goLookup registeredState.sched.workers k) ∧
      st'.trace = registeredState.trace ++ seg ∧
      (∀ e ∈ seg, ∀ k, e.isWorkersWrite k = false) :=
  schedule_start_failure flakyEnv registeredState demoJob ⟨7, defaultOpts⟩
    (.errorf "out of memory") rfl rfl (by decide) rfl

/-- C7: after a `schedule` call for a job-type that failed because the worker could not
be started, the job-type still has no worker and still has its handler, and the next
`schedule` call for it looks up the handler again, constructs a fresh worker (not the
one that failed) and starts it; if that start succeeds the fresh worker is recorded
under the job-type and the job is delegated to it. -/
theorem schedule_retries_after_start_failure (E : Env R) (st : State R) (job₁ job₂ : Job)
    (h : handler R) (err : GoError)
    (hm : st.sched.mutex = false)
    (hw : goLookup st.sched.workers job₁.jobType = none)
    (hh : goLookup st.sched.registered job₁.jobType = some h)
    (hs : E.start ⟨st.built, h.runnable, h.options⟩ = some err)
    (hj : job₂.jobType = job₁.jobType) :
    ∃ r₁ st₁, schedule E st job₁ = .ok (r₁, st₁) ∧
      r₁.err = some (startError E err job₁.jobType) ∧
      goLookup st₁.sched.workers job₁.jobType = none ∧
      goLookup st₁.sched.registered job₁.jobType = some h ∧
      ∃ r₂ st₂ seg, schedule E st₁ job₂ = .ok (r₂, st₂) ∧
        st₂.trace = st₁.trace ++ seg ∧
        seg.filter Event.isLookup =
          [.getHandler job₁.jobType, .registeredRead job₁.jobType] ∧
        seg.filter Event.isConstruct =
          [.newGoWorker ⟨st.built + 1, h.runnable, h.options⟩] ∧
        seg.filter Event.isStart = [.start ⟨st.built + 1, h.runnable, h.options⟩] ∧
        (⟨st.built + 1, h.runnable, h.options⟩ : worker R) ≠
          ⟨st.built, h.runnable, h.options⟩ ∧
        (E.start ⟨st.built + 1, h.runnable, h.options⟩ = none →
          goLookup st₂.sched.workers job₁.jobType =
            some ⟨st.built + 1, h.runnable, h.options⟩ ∧
          r₂ = E.workerSchedule ⟨st.built + 1, h.runnable, h.options⟩ job₂ ∧
          seg.filter Event.isDelegate =
            [.workerSchedule ⟨st.built + 1, h.runnable, h.options⟩ job₂]) := by
  obtain ⟨jt₂, data₂, result₂⟩ := job₂
  simp only at hj
  subst hj
  rw [schedule_startFailed E st job₁ h err hm hw hh hs]
  have hw₁ : goLookup (some (goEntries st.sched.workers)) job₁.jobType = none := by
    simpa [goLookup_eq_mapGet, goEntries] using hw
  refine ⟨_, _, rfl, rfl, hw₁, hh, ?_⟩
  obtain ⟨r₂, st₂, seg, hrun, htr, hlook, hcon, hstart, hsucc⟩ :=
    schedule_attempt E
      { sched := { registered := st.sched.registered,
                   workers := some (goEntries st.sched.workers), mutex := false },
        built := st.built + 1,
        trace := st.trace ++ lookupWorkerEvents st job₁.jobType ++
          getHandlerEvents st job₁.jobType ++
          [.newGoWorker ⟨st.built, h.runnable, h.options⟩,
           .start ⟨st.built, h.runnable, h.options⟩,
           .newResult, .sendErr (startError E err job₁.jobType)] }
      ⟨job₁.jobType, data₂, result₂⟩ h rfl hw₁ hh
  exact ⟨r₂, st₂, seg, hrun, htr, hlook, hcon, hstart, by simp, hsucc⟩

theorem schedule_retries_after_start_failure_witness :
    ∃ r₁ st₁, schedule flakyEnv registeredState demoJob = .ok (r₁, st₁) ∧
      r₁.err = some (startError flakyEnv (.errorf "out of memory") demoJob.jobType) ∧
      goLookup st₁.sched.workers demoJob.jobType = none ∧
      goLookup st₁.sched.registered demoJob.jobType = some ⟨7, defaultOpts⟩ ∧
      ∃ r₂ st₂ seg, schedule flakyEnv st₁ otherJob = .ok (r₂, st₂) ∧
        st₂.trace = st₁.trace ++ seg ∧
        seg.filter Event.isLookup =
          [.getHandler demoJob.jobType, .registeredRead demoJob.jobType] ∧
        seg.filter Event.isConstruct = [.newGoWorker ⟨0 + 1, 7, defaultOpts⟩] ∧
        seg.filter Event.isStart = [.start ⟨0 + 1, 7, defaultOpts⟩] ∧
        (⟨0 + 1, 7, defaultOpts⟩ : worker Nat) ≠ ⟨0, 7, defaultOpts⟩ ∧
        (flakyEnv.start ⟨0 + 1, 7, defaultOpts⟩ = none →
          goLookup st₂.sched.workers demoJob.jobType = some ⟨0 + 1, 7, defaultOpts⟩ ∧
          r₂ = flakyEnv.workerSchedule ⟨0 + 1, 7, defaultOpts⟩ otherJob ∧
          seg.filter Event.isDelegate =
            [.workerSchedule ⟨0 + 1, 7, defaultOpts⟩ otherJob]) :=
  schedule_retries_after_start_failure flakyEnv registeredState demoJob otherJob
    ⟨7, defaultOpts⟩ (.errorf "out of memory") rfl rfl (by decide) rfl rfl

/-- C8: in every sequential execution from `newScheduler`, every job-type has its
worker-table entry written at most once; and once the worker table maps a job-type to a
worker, every further sequence of `handle` and `schedule` calls runs to its end, leaves
that entry mapped to the same worker, writes the entry no more, and allocates no worker
in its `schedule` calls for that job-type. -/
theorem one_worker_per_jobType (E : Env R) (cs : List (Call R)) (jt : String) :
    ∃ st, runCalls E initState cs = .ok st ∧ writesOf jt st.trace ≤ 1 ∧
      ∀ w, goLookup st.sched.workers jt = some w → ∀ post : List (Call R),
        ∃ st', runCalls E st post = .ok st' ∧
          goLookup st'.sched.workers jt = some w ∧
          writesOf jt st'.trace = writesOf jt st.trace ∧
          builtFor E jt st post = 0 := by
  obtain ⟨st, hrun, hm, hinv⟩ := runCalls_writes E cs initState rfl
    (fun k => ⟨fun _ => rfl, Nat.zero_le 1⟩)
  exact ⟨st, hrun, (hinv jt).2, fun w hw post => runCalls_keeps_worker E jt w post st hm hw⟩

/-- C9, the code at the failing input: two threads call `schedule` at the same time,
each with the first job of the registered job-type `echo`. In the interleaving where
both read the worker table (lines 36-38) before either writes it (lines 57-59), both
calls return, two workers are constructed and started, the entry of `echo` is written
twice, the second write replacing the first worker, and the two jobs are delegated to
two different workers. -/
theorem concurrent_first_schedule_builds_two_workers :
    runInterleaved demoEnv ⟨registeredState, Thread.call demoJob, Thread.call otherJob⟩
        raceInterleaving = .ok raceOutcome ∧
      raceOutcome.t1.returned?.isSome = true ∧ raceOutcome.t2.returned?.isSome = true ∧
      raceOutcome.st.built = registeredState.built + 2 ∧
      raceOutcome.st.trace.filter Event.isConstruct =
        [.newGoWorker ⟨0, 7, defaultOpts⟩, .newGoWorker ⟨1, 7, defaultOpts⟩] ∧
      raceOutcome.st.trace.filter Event.isStart =
        [.start ⟨0, 7, defaultOpts⟩, .start ⟨1, 7, defaultOpts⟩] ∧
      raceOutcome.st.trace.filter (Event.isWorkersWrite "echo") =
        [.workersWrite "echo" ⟨0, 7, defaultOpts⟩, .workersWrite "echo" ⟨1, 7, defaultOpts⟩] ∧
      raceOutcome.st.trace.filter Event.isDelegate =
        [.workerSchedule ⟨0, 7, defaultOpts⟩ demoJob,
         .workerSchedule ⟨1, 7, defaultOpts⟩ otherJob] ∧
      goLookup raceOutcome.st.sched.workers "echo" = some ⟨1, 7, defaultOpts⟩ :=
  ⟨rfl, rfl, rfl, rfl, by decide, by decide, by decide, by decide, by decide⟩

/-- C10: when the job-type has neither a worker nor a registered handler, `schedule`
constructs no worker and starts none, and the worker table has after the call exactly
the entries it had before. -/
theorem schedule_unregistered_frame (E : Env R) (st : State R) (job : Job)
    (hm : st.sched.mutex = false)
    (hw : goLookup st.sched.workers job.jobType = none)
    (hh : goLookup st.sched.registered job.jobType = none) :
    ∃ r st' seg, schedule E st job = .ok (r, st') ∧
      st'.built = st.built ∧
      st'.trace = st.trace ++ seg ∧
      (∀ e ∈ seg, e.isConstruct = false ∧ e.isStart = false) ∧
      goEntries st'.sched.workers = goEntries st.sched.workers ∧
      (∀ k, goLookup st'.sched.workers k = goLookup st.sched.workers k) := by
  rw [schedule_noHandler E st job hm hw hh]
  refine ⟨_, _, _, rfl, rfl, by simp only [List.append_assoc]; rfl, ?_, ?_, ?_⟩
  · cases hws : st.sched.workers <;> cases hrs : st.sched.registered <;>
      simp [lookupWorkerEvents, getHandlerEvents, hws, hrs, Event.isConstruct, Event.isStart]
  · simp [goEntries]
  · intro k
    simp [goLookup_eq_mapGet, goEntries]

theorem schedule_unregistered_frame_witness :
    ∃ r st' seg, schedule demoEnv startedState ⟨"resize", [], newResult⟩ = .ok (r, st') ∧
      st'.built = startedState.built ∧
      st'.trace = startedState.trace ++ seg ∧
      (∀ e ∈ seg, e.isConstruct = false ∧ e.isStart = false) ∧
      goEntries st'.sched.workers = goEntries startedState.sched.workers ∧
      (∀ k, goLookup st'.sched.workers k = goLookup startedState.sched.workers k) :=
  schedule_unregistered_frame demoEnv startedState ⟨"resize", [], newResult⟩ rfl
    (by decide) (by decide)

/-- C11, as the code has it: for a job-type with no worker and no registered handler,
the error carried by the failed result that `schedule` returns has the text
`failed to getRunnable for jobType` followed by the job-type rendered by `%q`. -/
theorem schedule_noHandler_error_text (E : Env R) (st : State R) (job : Job)
    (hm : st.sched.mutex = false)
    (hw : goLookup st.sched.workers job.jobType = none)
    (hh : goLookup st.sched.registered job.jobType = none) :
    ∃ r st', schedule E st job = .ok (r, st') ∧
      r.err.map GoError.text =
        some ("failed to getRunnable for jobType " ++ E.quote job.jobType) := by
  rw [schedule_noHandler E st job hm hw hh]
  exact ⟨_, _, rfl, rfl⟩

theorem schedule_noHandler_error_text_witness :
    ∃ r st', schedule demoEnv startedState ⟨"resize", [], newResult⟩ = .ok (r, st') ∧
      r.err.map GoError.text =
        some ("failed to getRunnable for jobType " ++ demoEnv.quote "resize") :=
  schedule_noHandler_error_text demoEnv startedState ⟨"resize", [], newResult⟩ rfl
    (by decide) (by decide)

/-- C11, as the spec words it, fails: on a new scheduler, where `echo` has neither a
worker nor a handler, the error of the result of `schedule` reads
`failed to getRunnable for jobType "echo"`, which is not the text
`no handler registered for job-type "echo"`. -/
theorem schedule_noHandler_error_text_not_spec :
    ∃ r st', schedule demoEnv initState demoJob = .ok (r, st') ∧
      r.err.map GoError.text = some "failed to getRunnable for jobType \"echo\"" ∧
      specNoHandlerText demoEnv demoJob.jobType =
        "no handler registered for job-type \"echo\"" ∧
      r.err.map GoError.text ≠ some (specNoHandlerText demoEnv demoJob.jobType) :=
  ⟨_, _, rfl, by decide, by decide, by decide⟩

/-- C12: the configuration that `handle(jt, r, o1, ..., on)` stores is
`on(...(o2(o1(defaultOpts()))))`: the options are applied from left to right over the
default configuration, each to the result of the one before; with no option the stored
configuration is `defaultOpts()`. -/
theorem handle_stores_config (st : State R) (jt : String) (rn : R) (options : List OptionFn)
    (hm : st.sched.mutex = false) :
    ∃ st', handle st jt rn options = .ok st' ∧
      goLookup st'.sched.registered jt = some ⟨rn, specConfig options⟩ ∧
      (options = [] → goLookup st'.sched.registered jt = some ⟨rn, defaultOpts⟩) ∧
      specConfig [] = defaultOpts ∧
      (∀ (os : List OptionFn) (o : OptionFn), specConfig (os ++ [o]) = o (specConfig os)) ∧
      (∀ o₁ o₂ o₃ : OptionFn, specConfig [o₁, o₂, o₃] = o₃ (o₂ (o₁ defaultOpts))) := by
  rw [handle_eq st jt rn options hm]
  refine ⟨_, rfl, ?_, ?_, rfl, ?_, fun _ _ _ => rfl⟩
  · simp [goLookup, mapGet_mapSet_same, applyOptions_eq_specConfig]
  · intro hnil
    subst hnil
    simp [goLookup, mapGet_mapSet_same, applyOptions]
  · intro os o
    simp [specConfig]

theorem handle_stores_config_witness :
    ∃ st', handle (zeroState : State Nat) "wasm" 7
        [fun o => { o with poolSize := 5 }, fun o => { o with poolSize := o.poolSize + 1 }] =
        .ok st' ∧
      goLookup st'.sched.registered "wasm" = some ⟨7, specConfig
        [fun o => { o with poolSize := 5 }, fun o => { o with poolSize := o.poolSize + 1 }]⟩ ∧
      (([fun o => { o with poolSize := 5 }, fun o => { o with poolSize := o.poolSize + 1 }] :
          List OptionFn) = [] →
        goLookup st'.sched.registered "wasm" = some ⟨7, defaultOpts⟩) ∧
      specConfig [] = defaultOpts ∧
      (∀ (os : List OptionFn) (o : OptionFn), specConfig (os ++ [o]) = o (specConfig os)) ∧
      (∀ o₁ o₂ o₃ : OptionFn, specConfig [o₁, o₂, o₃] = o₃ (o₂ (o₁ defaultOpts))) :=
  handle_stores_config zeroState "wasm" 7
    [fun o => { o with poolSize := 5 }, fun o => { o with poolSize := o.poolSize + 1 }] rfl

/-- C13: `newScheduler` returns a scheduler whose registry and worker table are both
allocated and empty, and every `handle`, `getHandler` and `schedule` call on a scheduler
whose two maps are allocated returns with both maps allocated. -/
theorem maps_stay_allocated (E : Env R) (st : State R) (job : Job) (jt : String) (rn : R)
    (options : List OptionFn)
    (hm : st.sched.mutex = false)
    (hr : st.sched.registered ≠ none) (hws : st.sched.workers ≠ none) :
    ((newScheduler : scheduler R).registered = some [] ∧
      (newScheduler : scheduler R).workers = some []) ∧
    (∃ st', handle st jt rn options = .ok st' ∧
      st'.sched.registered ≠ none ∧ st'.sched.workers ≠ none) ∧
    (∃ h st', getHandler st jt = .ok (h, st') ∧
      st'.sched.registered ≠ none ∧ st'.sched.workers ≠ none) ∧
    (∃ r st', schedule E st job = .ok (r, st') ∧
      st'.sched.registered ≠ none ∧ st'.sched.workers ≠ none) := by
  refine ⟨⟨rfl, rfl⟩, ?_, ?_, ?_⟩
  · rw [handle_eq st jt rn options hm]
    exact ⟨_, rfl, by simp, hws⟩
  · rw [getHandler_eq st jt hm]
    exact ⟨_, _, rfl, hr, hws⟩
  · cases hw : goLookup st.sched.workers job.jobType with
    | some w =>
      rw [schedule_existing E st job w hm hw]
      exact ⟨_, _, rfl, hr, hws⟩
    | none =>
      cases hh : goLookup st.sched.registered job.jobType with
      | none =>
        rw [schedule_noHandler E st job hm hw hh]
        exact ⟨_, _, rfl, hr, by simp⟩
      | some h =>
        cases hs : E.start ⟨st.built, h.runnable, h.options⟩ with
        | some err =>
          rw [schedule_startFailed E st job h err hm hw hh hs]
          exact ⟨_, _, rfl, hr, by simp⟩
        | none =>
          rw [schedule_created E st job h hm hw hh hs]
          exact ⟨_, _, rfl, hr, by simp⟩

theorem maps_stay_allocated_witness :
    ((newScheduler : scheduler Nat).registered = some [] ∧
      (newScheduler : scheduler Nat).workers = some []) ∧
    (∃ st', handle registeredState "resize" 9 [] = .ok st' ∧
      st'.sched.registered ≠ none ∧ st'.sched.workers ≠ none) ∧
    (∃ h st', getHandler registeredState "resize" = .ok (h, st') ∧
      st'.sched.registered ≠ none ∧ st'.sched.workers ≠ none) ∧
    (∃ r st', schedule demoEnv registeredState demoJob = .ok (r, st') ∧
      st'.sched.registered ≠ none ∧ st'.sched.workers ≠ none) :=
  maps_stay_allocated demoEnv registeredState demoJob "resize" 9 [] rfl (by decide) (by decide)

/-- C14: in every execution of `schedule` the mutex is not held when the new worker is
constructed or started, nor when a job is delegated to a worker: the statements executed
while the mutex is held are only the read of the worker table, the nil check and the
read of the registry, and the write of the worker table; the starts and the
delegations of the call are all among the statements executed while the mutex is free. -/
theorem schedule_lock_scope (E : Env R) (st : State R) (job : Job)
    (hm : st.sched.mutex = false) :
    ∃ r st' seg, schedule E st job = .ok (r, st') ∧ st'.trace = st.trace ++ seg ∧
      (∀ e ∈ underLock false seg,
        e.isStart = false ∧ e.isDelegate = false ∧ e.isConstruct = false) ∧
      (∀ e ∈ underLock false seg,
        (∃ jt, e = .workersRead jt) ∨ e = .registeredNilCheck ∨
        (∃ jt, e = .registeredRead jt) ∨ (∃ jt w, e = .workersWrite jt w)) ∧
      (outsideLock false seg).filter (fun e => e.isStart || e.isDelegate) =
        seg.filter (fun e => e.isStart || e.isDelegate) := by
  cases hw : goLookup st.sched.workers job.jobType with
  | some w =>
    rw [schedule_existing E st job w hm hw]
    refine ⟨_, _, lookupWorkerEvents st job.jobType ++ [.workerSchedule w job], rfl,
      by simp, ?_, ?_, ?_⟩ <;>
    cases hws : st.sched.workers <;>
      simp [lookupWorkerEvents, hws, underLock, outsideLock, Event.isStart,
        Event.isDelegate, Event.isConstruct, List.filter]
  | none =>
    cases hh : goLookup st.sched.registered job.jobType with
    | none =>
      rw [schedule_noHandler E st job hm hw hh]
      refine ⟨_, _, _, rfl, by simp only [List.append_assoc]; rfl, ?_, ?_, ?_⟩ <;>
      cases hws : st.sched.workers <;> cases hrs : st.sched.registered <;>
        simp [lookupWorkerEvents, getHandlerEvents, hws, hrs, underLock, outsideLock,
          Event.isStart, Event.isDelegate, Event.isConstruct, List.filter]
    | some h =>
      cases hs : E.start ⟨st.built, h.runnable, h.options⟩ with
      | some err =>
        rw [schedule_startFailed E st job h err hm hw hh hs]
        refine ⟨_, _, _, rfl, by simp only [List.append_assoc]; rfl, ?_, ?_, ?_⟩ <;>
        cases hws : st.sched.workers <;> cases hrs : st.sched.registered <;>
          simp [lookupWorkerEvents, getHandlerEvents, hws, hrs, underLock, outsideLock,
            Event.isStart, Event.isDelegate, Event.isConstruct, List.filter]
      | none =>
        rw [schedule_created E st job h hm hw hh hs]
        refine ⟨_, _, _, rfl, by simp only [List.append_assoc]; rfl, ?_, ?_, ?_⟩ <;>
        cases hws : st.sched.workers <;> cases hrs : st.sched.registered <;>
          simp [lookupWorkerEvents, getHandlerEvents, hws, hrs, underLock, outsideLock,
            Event.isStart, Event.isDelegate, Event.isConstruct, List.filter]

theorem schedule_lock_scope_witness :
    ∃ r st' seg, schedule demoEnv registeredState demoJob = .ok (r, st') ∧
      st'.trace = registeredState.trace ++ seg ∧
      (∀ e ∈ underLock false seg,
        e.isStart = false ∧ e.isDelegate = false ∧ e.isConstruct = false) ∧
      (∀ e ∈ underLock false seg,
        (∃ jt, e = .workersRead jt) ∨ e = .registeredNilCheck ∨
        (∃ jt, e = .registeredRead jt) ∨ (∃ jt w, e = .workersWrite jt w)) ∧
      (outsideLock false seg).filter (fun e => e.isStart || e.isDelegate) =
        seg.filter (fun e => e.isStart || e.isDelegate) :=
  schedule_lock_scope demoEnv registeredState demoJob rfl

/-- C15, the code at the failing input: on a zero-value scheduler `schedule` checks the
worker table for nil and allocates it (lines 32-34) before it takes the mutex, so a read
and a write of the worker table happen while the mutex is free; on a scheduler made by
`newScheduler` the nil check of line 32 still reads the worker table with the mutex
free. `handle` on the zero-value scheduler does its nil check and its allocation of the
registry with the mutex held, and so does `getHandler` its nil check. -/
theorem schedule_checks_worker_table_unlocked :
    (∃ r st', schedule demoEnv zeroState demoJob = .ok (r, st') ∧
      (outsideLock false st'.trace).filter Event.isMapAccess =
        [.workersNilCheck, .workersAlloc]) ∧
    (∃ r st', schedule demoEnv registeredState demoJob = .ok (r, st') ∧
      (outsideLock false st'.trace).filter Event.isMapAccess = [.workersNilCheck]) ∧
    (∃ st', handle (zeroState : State Nat) "echo" 7 [] = .ok st' ∧
      (outsideLock false st'.trace).filter Event.isMapAccess = [] ∧
      (underLock false st'.trace).filter Event.isMapAccess =
        [.registeredNilCheck, .registeredAlloc "echo" ⟨7, defaultOpts⟩]) ∧
    (∃ h st', getHandler (zeroState : State Nat) "echo" = .ok (h, st') ∧
      (outsideLock false st'.trace).filter Event.isMapAccess = [] ∧
      (underLock false st'.trace).filter Event.isMapAccess = [.registeredNilCheck]) :=
  ⟨⟨_, _, rfl, by decide⟩, ⟨_, _, rfl, by decide⟩, ⟨_, rfl, by decide, by decide⟩,
    ⟨_, _, rfl, by decide, by decide⟩⟩

/-- C16: `schedule`, `handle` and `getHandler` never fault, whatever the scheduler value,
the zero-value scheduler with nil registry and nil worker table included: none of them
ends in a write to a nil map or in an unlock of a free mutex; called with the mutex
free each of them returns, and `schedule` then delivers its two failures (no handler,
worker start error) as a failed result. -/
theorem calls_never_fault (E : Env R) (st : State R) (job : Job) (jt : String) (rn : R)
    (options : List OptionFn) :
    (∀ f, schedule E st job = .error f ∨ handle st jt rn options = .error f ∨
        getHandler st jt = .error f → f = .deadlock ∧ st.sched.mutex = true) ∧
    (st.sched.mutex = false →
      (∃ r st', schedule E st job = .ok (r, st') ∧
        (goLookup st.sched.workers job.jobType = none →
          goLookup st.sched.registered job.jobType = none →
          r.err = some (noHandlerError E job.jobType)) ∧
        (∀ h err, goLookup st.sched.workers job.jobType = none →
          goLookup st.sched.registered job.jobType = some h →
          E.start ⟨st.built, h.runnable, h.options⟩ = some err →
          r.err = some (startError E err job.jobType))) ∧
      (∃ st', handle st jt rn options = .ok st') ∧
      (∃ h st', getHandler st jt = .ok (h, st'))) ∧
    ((∃ r st', schedule E zeroState job = .ok (r, st')) ∧
      (∃ st', handle (zeroState : State R) jt rn options = .ok st') ∧
      (∃ h st', getHandler (zeroState : State R) jt = .ok (h, st'))) := by
  have hfree : ∀ s : State R, s.sched.mutex = false →
      (∃ r st', schedule E s job = .ok (r, st') ∧
        (goLookup s.sched.workers job.jobType = none →
          goLookup s.sched.registered job.jobType = none →
          r.err = some (noHandlerError E job.jobType)) ∧
        (∀ h err, goLookup s.sched.workers job.jobType = none →
          goLookup s.sched.registered job.jobType = some h →
          E.start ⟨s.built, h.runnable, h.options⟩ = some err →
          r.err = some (startError E err job.jobType))) ∧
      (∃ st', handle s jt rn options = .ok st') ∧
      (∃ h st', getHandler s jt = .ok (h, st')) := by
    intro s hm
    refine ⟨?_, ⟨_, handle_eq s jt rn options hm⟩, ⟨_, _, getHandler_eq s jt hm⟩⟩
    cases hw : goLookup s.sched.workers job.jobType with
    | some w =>
      rw [schedule_existing E s job w hm hw]
      exact ⟨_, _, rfl, fun h => Option.noConfusion h, fun _ _ h => Option.noConfusion h⟩
    | none =>
      cases hh : goLookup s.sched.registered job.jobType with
      | none =>
        rw [schedule_noHandler E s job hm hw hh]
        exact ⟨_, _, rfl, fun _ _ => rfl, fun _ _ _ h => Option.noConfusion h⟩
      | some h =>
        cases hs : E.start ⟨s.built, h.runnable, h.options⟩ with
        | some err =>
          rw [schedule_startFailed E s job h err hm hw hh hs]
          refine ⟨_, _, rfl, fun _ h' => Option.noConfusion h', ?_⟩
          intro h' err' _ hh' hs'
          cases hh'
          rw [hs] at hs'
          cases hs'
          rfl
        | none =>
          rw [schedule_created E s job h hm hw hh hs]
          refine ⟨_, _, rfl, fun _ h' => Option.noConfusion h', ?_⟩
          intro h' err' _ hh' hs'
          cases hh'
          rw [hs] at hs'
          exact Option.noConfusion hs'
  obtain ⟨⟨r₀, st₀, h₀, _⟩, hz₂, hz₃⟩ := hfree zeroState rfl
  refine ⟨?_, hfree st, ⟨r₀, st₀, h₀⟩, hz₂, hz₃⟩
  intro f hf
  cases hmu : st.sched.mutex with
  | true =>
    obtain ⟨h₁, h₂, h₃⟩ := locked_call_blocks E st job jt rn options hmu
    rw [h₁, h₂, h₃] at hf
    rcases hf with hf | hf | hf <;> cases hf <;> exact ⟨rfl, rfl⟩
  | false =>
    obtain ⟨⟨r, st', h₁, _⟩, ⟨st₂, h₂⟩, ⟨h, st₃, h₃⟩⟩ := hfree st hmu
    rw [h₁, h₂, h₃] at hf
    rcases hf with hf | hf | hf <;> cases hf

/-- C17, as the code has it: for a job-type whose worker is built from a runnable that
returns `(V, no error)` on the payload of the job (the worker exists already and was
built from it, or the job-type has no worker yet, is registered with it and the new
worker starts successfully), `schedule` delegates the unmodified job once, to that
worker, and returns that worker's result unmodified; waiting on the result of the
submission yields `(V, nil)`. -/
theorem submit_yields_runnable_value (E : Env R) (exec : Execute R) (st : State R)
    (store : Store) (job : Job) (rn : R) (V : Payload)
    (hm : st.sched.mutex = false)
    (hpath : (∃ w, goLookup st.sched.workers job.jobType = some w ∧ w.runnable = rn) ∨
      (goLookup st.sched.workers job.jobType = none ∧
        ∃ h, goLookup st.sched.registered job.jobType = some h ∧ h.runnable = rn ∧
          E.start ⟨st.built, h.runnable, h.options⟩ = none))
    (hrun : (exec rn job.data store).1 = .ok V) :
    ∃ w st' seg res store', schedule E st job = .ok (E.workerSchedule w job, st') ∧
      w.runnable = rn ∧ st'.trace = st.trace ++ seg ∧
      seg.filter Event.isDelegate = [.workerSchedule w job] ∧
      submitAndWait E exec st store job = .ok (res, st', store') ∧
      res.wait = some (some V, none) := by
  rcases hpath with ⟨w, hw, hwr⟩ | ⟨hw, h, hh, hhr, hs⟩
  · subst hwr
    have hsch := schedule_existing E st job w hm hw
    refine ⟨w, _, lookupWorkerEvents st job.jobType ++ [.workerSchedule w job],
      completed (exec w.runnable job.data store).1, (exec w.runnable job.data store).2, hsch,
      rfl, by simp, ?_, ?_, ?_⟩
    · cases hws : st.sched.workers <;>
        simp [lookupWorkerEvents, hws, List.filter, Event.isDelegate]
    · simp only [submitAndWait, hsch, bind, Except.bind, List.append_assoc,
        delegatedTo_append_concat, pure, Except.pure]
    · rw [hrun]
      rfl
  · subst hhr
    have hsch := schedule_created E st job h hm hw hh hs
    refine ⟨⟨st.built, h.runnable, h.options⟩, _, _,
      completed (exec h.runnable job.data store).1, (exec h.runnable job.data store).2, hsch,
      rfl, by simp only [List.append_assoc]; rfl, ?_, ?_, ?_⟩
    · cases hws : st.sched.workers <;> cases hrs : st.sched.registered <;>
        simp [lookupWorkerEvents, getHandlerEvents, hws, hrs, List.filter, Event.isDelegate]
    · simp only [submitAndWait, hsch, bind, Except.bind, List.append_assoc, pure, Except.pure]
      rw [show ∀ a b c d e f : Event R, [a, b, c, d, e, f] = [a, b, c, d, e] ++ [f] from
        fun _ _ _ _ _ _ => rfl, ← List.append_assoc (getHandlerEvents st job.jobType),
        ← List.append_assoc (lookupWorkerEvents st job.jobType), delegatedTo_append_concat]
    · rw [hrun]
      rfl

theorem submit_yields_runnable_value_witness :
    ∃ w st' seg res store',
      schedule demoEnv registeredState demoJob = .ok (demoEnv.workerSchedule w demoJob, st') ∧
      w.runnable = 7 ∧ st'.trace = registeredState.trace ++ seg ∧
      seg.filter Event.isDelegate = [.workerSchedule w demoJob] ∧
      submitAndWait demoEnv echoExecute registeredState [] demoJob = .ok (res, st', store') ∧
      res.wait = some (some (helloBytes ++ demoJob.data), none) :=
  submit_yields_runnable_value demoEnv echoExecute registeredState [] demoJob 7
    (helloBytes ++ demoJob.data) rfl (Or.inr ⟨rfl, ⟨7, defaultOpts⟩, by decide, rfl, rfl⟩) rfl

/-- C17, as the claim words it, fails: `echo` is registered with runnable 7, a first job
creates its worker, and `echo` is registered again with runnable 9, which returns the
byte 9 on every input; the worker of `echo` has started successfully, yet waiting on a
job submitted to `echo` yields the byte 7 of the earlier runnable, not the byte 9. -/
theorem submit_after_reregistration_runs_old_runnable :
    ∃ st, runCalls demoEnv initState reregisterCalls = .ok st ∧
      goLookup st.sched.registered demoJob.jobType = some ⟨9, defaultOpts⟩ ∧
      (tagExecute 9 demoJob.data []).1 = .ok [9] ∧
      (∀ w, demoEnv.start w = none) ∧
      ∃ res st' store', submitAndWait demoEnv tagExecute st [] demoJob =
          .ok (res, st', store') ∧
        res.wait = some (some [7], none) ∧ res.wait ≠ some (some [9], none) :=
  ⟨_, rfl, by decide, rfl, fun _ => rfl, _, _, _, rfl, by decide, by decide⟩

/-- C18: on every path `schedule` leaves the registry as it was, keys and stored
handlers alike, and executes no write of the registry; so does `getHandler`. -/
theorem registry_only_changed_by_handle (E : Env R) (st : State R) (job : Job) (jt : String)
    (hm : st.sched.mutex = false) :
    (∃ r st' seg, schedule E st job = .ok (r, st') ∧
      st'.sched.registered = st.sched.registered ∧
      st'.trace = st.trace ++ seg ∧ (∀ e ∈ seg, e.isRegistryWrite = false)) ∧
    (∃ h st' seg, getHandler st jt = .ok (h, st') ∧
      st'.sched.registered = st.sched.registered ∧
      st'.trace = st.trace ++ seg ∧ (∀ e ∈ seg, e.isRegistryWrite = false)) := by
  refine ⟨?_, ?_⟩
  · cases hw : goLookup st.sched.workers job.jobType with
    | some w =>
      rw [schedule_existing E st job w hm hw]
      refine ⟨_, _, lookupWorkerEvents st job.jobType ++ [.workerSchedule w job], rfl, rfl,
        by simp, ?_⟩
      cases hws : st.sched.workers <;>
        simp [lookupWorkerEvents, hws, Event.isRegistryWrite]
    | none =>
      cases hh : goLookup st.sched.registered job.jobType with
      | none =>
        rw [schedule_noHandler E st job hm hw hh]
        refine ⟨_, _, _, rfl, rfl, by simp only [List.append_assoc]; rfl, ?_⟩
        cases hws : st.sched.workers <;> cases hrs : st.sched.registered <;>
          simp [lookupWorkerEvents, getHandlerEvents, hws, hrs, Event.isRegistryWrite]
      | some h =>
        cases hs : E.start ⟨st.built, h.runnable, h.options⟩ with
        | some err =>
          rw [schedule_startFailed E st job h err hm hw hh hs]
          refine ⟨_, _, _, rfl, rfl, by simp only [List.append_assoc]; rfl, ?_⟩
          cases hws : st.sched.workers <;> cases hrs : st.sched.registered <;>
            simp [lookupWorkerEvents, getHandlerEvents, hws, hrs, Event.isRegistryWrite]
        | none =>
          rw [schedule_created E st job h hm hw hh hs]
          refine ⟨_, _, _, rfl, rfl, by simp only [List.append_assoc]; rfl, ?_⟩
          cases hws : st.sched.workers <;> cases hrs : st.sched.registered <;>
            simp [lookupWorkerEvents, getHandlerEvents, hws, hrs, Event.isRegistryWrite]
  · rw [getHandler_eq st jt hm]
    refine ⟨_, _, _, rfl, rfl, rfl, ?_⟩
    cases hrs : st.sched.registered <;> simp [getHandlerEvents, hrs, Event.isRegistryWrite]

theorem registry_only_changed_by_handle_witness :
    (∃ r st' seg, schedule demoEnv registeredState demoJob = .ok (r, st') ∧
      st'.sched.registered = registeredState.sched.registered ∧
      st'.trace = registeredState.trace ++ seg ∧ (∀ e ∈ seg, e.isRegistryWrite = false)) ∧
    (∃ h st' seg, getHandler registeredState "echo" = .ok (h, st') ∧
      st'.sched.registered = registeredState.sched.registered ∧
      st'.trace = registeredState.trace ++ seg ∧ (∀ e ∈ seg, e.isRegistryWrite = false)) :=
  registry_only_changed_by_handle demoEnv registeredState demoJob "echo" rfl

/-- C19: for every value `v`, when job-type `a` is registered with a runnable that sets
a key of the shared state store to its input and another job-type `b` with a runnable
that gets that key, a job of job-type `a` with payload `v`, submitted and waited for,
completes without error, and a job of job-type `b` submitted afterwards returns exactly
`v`. The two job-types are arbitrary, so either of two registered job-types can be the
writer and the other the reader. -/
theorem cache_set_then_get (E : Env CacheRunnable) (st : State CacheRunnable) (store : Store)
    (a b key : String) (v input : Payload) (oa ob : workerOpts)
    (hm : st.sched.mutex = false) (hab : a ≠ b) (hstart : ∀ w, E.start w = none)
    (hra : goLookup st.sched.registered a = some ⟨.setter key, oa⟩)
    (hrb : goLookup st.sched.registered b = some ⟨.getter key, ob⟩)
    (hwa : ∀ w, goLookup st.sched.workers a = some w → w.runnable = .setter key)
    (hwb : ∀ w, goLookup st.sched.workers b = some w → w.runnable = .getter key) :
    ∃ r₁ st₁ store₁ r₂ st₂ store₂,
      submitAndWait E CacheRunnable.execute st store ⟨a, v, newResult⟩ =
        .ok (r₁, st₁, store₁) ∧
      r₁.wait = some (some [], none) ∧
      submitAndWait E CacheRunnable.execute st₁ store₁ ⟨b, input, newResult⟩ =
        .ok (r₂, st₂, store₂) ∧
      r₂.wait = some (some v, none) := by
  obtain ⟨st₁, h₁, hm₁, hreg₁, hwk₁⟩ :=
    submitAndWait_routed E CacheRunnable.execute st store ⟨a, v, newResult⟩
      ⟨.setter key, oa⟩ hm hstart hra hwa
  have hwb₁ : ∀ w, goLookup st₁.sched.workers b = some w → w.runnable = .getter key := by
    intro w hw
    rcases hwk₁ b w hw with hold | ⟨hba, _⟩
    · exact hwb w hold
    · exact absurd hba.symm hab
  obtain ⟨st₂, h₂, _, _, _⟩ :=
    submitAndWait_routed E CacheRunnable.execute st₁ (store.set key v) ⟨b, input, newResult⟩
      ⟨.getter key, ob⟩ hm₁ hstart (by rw [hreg₁]; exact hrb) hwb₁
  refine ⟨_, st₁, _, _, st₂, _, h₁, rfl, h₂, ?_⟩
  simp [CacheRunnable.execute, Store.get, Store.set, mapGet_mapSet_same, completed,
    Result.wait]

theorem cache_set_then_get_witness :
    ∃ r₁ st₁ store₁ r₂ st₂ store₂,
      submitAndWait cacheEnv CacheRunnable.execute cacheState []
          ⟨"rust-set", [118, 105], newResult⟩ = .ok (r₁, st₁, store₁) ∧
      r₁.wait = some (some [], none) ∧
      submitAndWait cacheEnv CacheRunnable.execute st₁ store₁ ⟨"swift-get", [], newResult⟩ =
        .ok (r₂, st₂, store₂) ∧
      r₂.wait = some (some [118, 105], none) :=
  cache_set_then_get cacheEnv cacheState [] "rust-set" "swift-get" "important" [118, 105] []
    defaultOpts defaultOpts rfl (by decide) (fun _ => rfl) (by decide) (by decide)
    (fun w h => by simp [cacheState, goLookup, mapGet] at h)
    (fun w h => by simp [cacheState, goLookup, mapGet] at h)

/-- C20: a group built by adding `N` results, in any order of results, has exactly these
members; its `wait` returns nil when every member is fulfilled, and, once every member
is terminal, returns a non-nil error when at least one member is failed. -/
theorem group_wait_outcome (rs : List Result) :
    (rs.foldl Group.add newGroup).members = rs ∧
    ((∀ r ∈ rs, ∃ v, r.state = .fulfilled v) →
      (rs.foldl Group.add newGroup).wait = some none) ∧
    ((∀ r ∈ rs, r.state ≠ .pending) → (∃ r ∈ rs, ∃ e, r.state = .failed e) →
      ∃ e, (rs.foldl Group.add newGroup).wait = some (some e)) := by
  have hmem : (rs.foldl Group.add newGroup).members = rs := by
    simp [foldl_add_members, newGroup]
  refine ⟨hmem, ?_, ?_⟩
  · intro hall
    have hterm : ∀ r ∈ rs, r.state ≠ .pending := by
      intro r hr hp
      obtain ⟨v, hv⟩ := hall r hr
      rw [hv] at hp
      exact ResultState.noConfusion hp
    simp [Group.wait, hmem, any_isPending_eq_false rs hterm, findSome_err_eq_none rs hall]
  · intro hterm hfail
    obtain ⟨e, he⟩ := findSome_err_isSome rs hfail
    exact ⟨e, by simp [Group.wait, hmem, any_isPending_eq_false rs hterm, he]⟩

/-- C21: for every byte payload `p`, payloads of 64 KB and more included, a job with
payload `p` submitted to a job-type registered with the echo runnable, and waited for,
yields no error and exactly the bytes of `hello` and a blank followed by `p`: nothing is
changed and nothing is cut off. -/
theorem echo_round_trip (E : Env Nat) (st : State Nat) (store : Store) (jt : String)
    (p : Payload) (h : handler Nat)
    (hm : st.sched.mutex = false) (hstart : ∀ w, E.start w = none)
    (hreg : goLookup st.sched.registered jt = some h)
    (hwk : ∀ w, goLookup st.sched.workers jt = some w → w.runnable = h.runnable) :
    ∃ res st' store', submitAndWait E echoExecute st store ⟨jt, p, newResult⟩ =
        .ok (res, st', store') ∧
      res.wait = some (some (helloBytes ++ p), none) ∧
      (helloBytes ++ p).length = 6 + p.length ∧
      (helloBytes ++ p).take 6 = helloBytes ∧ (helloBytes ++ p).drop 6 = p ∧
      (64000 ≤ p.length → 64000 ≤ (helloBytes ++ p).length) := by
  obtain ⟨st', hrun, _⟩ :=
    submitAndWait_routed E echoExecute st store ⟨jt, p, newResult⟩ h hm hstart hreg hwk
  refine ⟨_, st', _, hrun, rfl, ?_, ?_, ?_, ?_⟩
  · simp [helloBytes]
    omega
  · simp [helloBytes]
  · simp [helloBytes]
  · intro hp
    simp [helloBytes]
    omega

theorem echo_round_trip_witness :
    ∃ res st' store', submitAndWait demoEnv echoExecute registeredState []
        ⟨"echo", largePayload, newResult⟩ = .ok (res, st', store') ∧
      res.wait = some (some (helloBytes ++ largePayload), none) ∧
      (helloBytes ++ largePayload).length = 6 + largePayload.length ∧
      (helloBytes ++ largePayload).take 6 = helloBytes ∧
      (helloBytes ++ largePayload).drop 6 = largePayload ∧
      (64000 ≤ largePayload.length → 64000 ≤ (helloBytes ++ largePayload).length) :=
  echo_round_trip demoEnv registeredState [] "echo" largePayload ⟨7, defaultOpts⟩ rfl
    (fun _ => rfl) (by decide)
    (fun w h => by simp [registeredState, goLookup, mapGet] at h)

/-- C22: whenever `schedule`, called on the scheduler at the pointer `s`, starts a new
worker, the function value it passes to the worker's `start` is the method value
`s.schedule` of that same scheduler, and of no other: when the job-type has a handler
and no worker there is exactly one `start` call, for the worker just allocated, and
otherwise none. A job submitted through that function is the call `s.schedule(job)` of
an outside caller: it runs `schedule` on the scheduler at `s`, against its registry and
its worker table, and leaves every other scheduler as it is. -/
theorem start_receives_own_schedule (E : EnvAt R) (heap : Heap R) (s : Addr) (job : Job)
    (hm : (heap s).sched.mutex = false) :
    ∃ r st' calls, schedule (E.toEnv ⟨s⟩) (heap s) job = .ok (r, st') ∧
      callSchedule E heap s job = .ok (r, Function.update heap s st', calls) ∧
      (∀ h, goLookup (heap s).sched.workers job.jobType = none →
        goLookup (heap s).sched.registered job.jobType = some h →
        calls = [⟨⟨(heap s).built, h.runnable, h.options⟩, ⟨s⟩⟩]) ∧
      ((goLookup (heap s).sched.workers job.jobType).isSome ∨
        goLookup (heap s).sched.registered job.jobType = none → calls = []) ∧
      (∀ c ∈ calls, c.f = ⟨s⟩ ∧ (∀ s', s' ≠ s → c.f ≠ ⟨s'⟩) ∧
        ∀ (heap₂ : Heap R) (job₂ : Job),
          c.f.call E heap₂ job₂ = callSchedule E heap₂ s job₂ ∧
          ((heap₂ s).sched.mutex = false →
            ∃ r₂ st₂ calls₂, schedule (E.toEnv ⟨s⟩) (heap₂ s) job₂ = .ok (r₂, st₂) ∧
              c.f.call E heap₂ job₂ = .ok (r₂, Function.update heap₂ s st₂, calls₂) ∧
              ∀ a, a ≠ s → Function.update heap₂ s st₂ a = heap₂ a)) := by
  have hcall : ∀ (hp : Heap R) (j : Job), (hp s).sched.mutex = false →
      ∃ r st' calls, schedule (E.toEnv ⟨s⟩) (hp s) j = .ok (r, st') ∧
        scheduleRecv E s (hp s) j = .ok (r, st', calls) ∧
        callSchedule E hp s j = .ok (r, Function.update hp s st', calls) := by
    intro hp j hmp
    obtain ⟨r, st', hsch, hrecv⟩ := scheduleRecv_eq E s (hp s) j hmp
    rcases hrecv with ⟨h, _, _, hr⟩ | ⟨_, hr⟩
    · exact ⟨r, st', [⟨⟨(hp s).built, h.runnable, h.options⟩, ⟨s⟩⟩], hsch, hr, by
        simp only [callSchedule, hr, bind, Except.bind, pure, Except.pure]⟩
    · exact ⟨r, st', [], hsch, hr, by
        simp only [callSchedule, hr, bind, Except.bind, pure, Except.pure]⟩
  obtain ⟨r, st', hsch, hrecv⟩ := scheduleRecv_eq E s (heap s) job hm
  have hroute : ∀ c : StartCall R, c.f = ⟨s⟩ →
      c.f = ⟨s⟩ ∧ (∀ s', s' ≠ s → c.f ≠ ⟨s'⟩) ∧
        ∀ (heap₂ : Heap R) (job₂ : Job),
          c.f.call E heap₂ job₂ = callSchedule E heap₂ s job₂ ∧
          ((heap₂ s).sched.mutex = false →
            ∃ r₂ st₂ calls₂, schedule (E.toEnv ⟨s⟩) (heap₂ s) job₂ = .ok (r₂, st₂) ∧
              c.f.call E heap₂ job₂ = .ok (r₂, Function.update heap₂ s st₂, calls₂) ∧
              ∀ a, a ≠ s → Function.update heap₂ s st₂ a = heap₂ a) := by
    intro c hf
    refine ⟨hf, ?_, ?_⟩
    · intro s' hs' hc
      rw [hf] at hc
      exact hs' (RunFunc.mk.inj hc).symm
    · intro heap₂ job₂
      refine ⟨by rw [RunFunc.call, hf], fun hm₂ => ?_⟩
      obtain ⟨r₂, st₂, calls₂, hsch₂, _, hcs₂⟩ := hcall heap₂ job₂ hm₂
      refine ⟨r₂, st₂, calls₂, hsch₂, by rw [RunFunc.call, hf]; exact hcs₂, ?_⟩
      intro a ha
      simp [Function.update, ha]
  rcases hrecv with ⟨h, hw, hh, hr⟩ | ⟨hnone, hr⟩
  · refine ⟨r, st', [⟨⟨(heap s).built, h.runnable, h.options⟩, ⟨s⟩⟩], hsch, by
      simp only [callSchedule, hr, bind, Except.bind, pure, Except.pure], ?_, ?_, ?_⟩
    · intro h' _ hh'
      rw [hh] at hh'
      cases hh'
      rfl
    · intro hcase
      rcases hcase with hsome | hno
      · rw [hw] at hsome
        exact Bool.noConfusion hsome
      · rw [hh] at hno
        exact Option.noConfusion hno
    · intro c hc
      rw [List.mem_singleton] at hc
      exact hroute c (by rw [hc])
  · refine ⟨r, st', [], hsch, by
      simp only [callSchedule, hr, bind, Except.bind, pure, Except.pure], ?_, fun _ => rfl, ?_⟩
    · intro h' hw' hh'
      rcases hnone with hsome | hno
      · rw [hw'] at hsome
        exact Bool.noConfusion hsome
      · rw [hh'] at hno
        exact Option.noConfusion hno
    · intro c hc
      cases hc

theorem start_receives_own_schedule_witness :
    ∃ r st' calls, schedule (demoEnvAt.toEnv ⟨0⟩) (demoHeap 0) demoJob = .ok (r, st') ∧
      callSchedule demoEnvAt demoHeap 0 demoJob =
        .ok (r, Function.update demoHeap 0 st', calls) ∧
      (∀ h, goLookup (demoHeap 0).sched.workers demoJob.jobType = none →
        goLookup (demoHeap 0).sched.registered demoJob.jobType = some h →
        calls = [⟨⟨(demoHeap 0).built, h.runnable, h.options⟩, ⟨0⟩⟩]) ∧
      ((goLookup (demoHeap 0).sched.workers demoJob.jobType).isSome ∨
        goLookup (demoHeap 0).sched.registered demoJob.jobType = none → calls = []) ∧
      (∀ c ∈ calls, c.f = ⟨0⟩ ∧ (∀ s', s' ≠ 0 → c.f ≠ ⟨s'⟩) ∧
        ∀ (heap₂ : Heap Nat) (job₂ : Job),
          c.f.call demoEnvAt heap₂ job₂ = callSchedule demoEnvAt heap₂ 0 job₂ ∧
          ((heap₂ 0).sched.mutex = false →
            ∃ r₂ st₂ calls₂, schedule (demoEnvAt.toEnv ⟨0⟩) (heap₂ 0) job₂ = .ok (r₂, st₂) ∧
              c.f.call demoEnvAt heap₂ job₂ =
                .ok (r₂, Function.update heap₂ 0 st₂, calls₂) ∧
              ∀ a, a ≠ 0 → Function.update heap₂ 0 st₂ a = heap₂ a)) :=
  start_receives_own_schedule demoEnvAt demoHeap 0 demoJob rfl

/-- C23: every error that `schedule` itself produces names the job-type and the stage:
the text of the no-handler error is a message followed by the job-type rendered by
`%q`, and the text of the start-failure error is a stage message followed by the
job-type rendered by `%q`, then a colon and a blank, then the text of the start error. -/
theorem schedule_errors_name_jobType (E : Env R) (st : State R) (job : Job)
    (hm : st.sched.mutex = false)
    (hw : goLookup st.sched.workers job.jobType = none) :
    (goLookup st.sched.registered job.jobType = none →
      ∃ r st', schedule E st job = .ok (r, st') ∧
        r.err.map GoError.text =
          some ("failed to getRunnable for jobType " ++ E.quote job.jobType)) ∧
    (∀ h err, goLookup st.sched.registered job.jobType = some h →
      E.start ⟨st.built, h.runnable, h.options⟩ = some err →
      ∃ r st', schedule E st job = .ok (r, st') ∧
        r.err.map GoError.text =
          some ("failed start worker for jobType " ++ E.quote job.jobType ++ ": " ++
            err.text)) := by
  refine ⟨fun hh => ?_, fun h err hh hs => ?_⟩
  · rw [schedule_noHandler E st job hm hw hh]
    exact ⟨_, _, rfl, rfl⟩
  · rw [schedule_startFailed E st job h err hm hw hh hs]
    exact ⟨_, _, rfl, rfl⟩

theorem schedule_errors_name_jobType_witness :
    (goLookup registeredState.sched.registered demoJob.jobType = none →
      ∃ r st', schedule flakyEnv registeredState demoJob = .ok (r, st') ∧
        r.err.map GoError.text =
          some ("failed to getRunnable for jobType " ++ flakyEnv.quote demoJob.jobType)) ∧
    (∀ h err, goLookup registeredState.sched.registered demoJob.jobType = some h →
      flakyEnv.start ⟨registeredState.built, h.runnable, h.options⟩ = some err →
      ∃ r st', schedule flakyEnv registeredState demoJob = .ok (r, st') ∧
        r.err.map GoError.text =
          some ("failed start worker for jobType " ++ flakyEnv.quote demoJob.jobType ++
            ": " ++ err.text)) :=
  schedule_errors_name_jobType flakyEnv registeredState demoJob rfl rfl

/-- C24: on both error paths of `schedule` (no handler, worker start failure) the result
returned is the one created inside the call by the only `newResult` of the call, it is
sent exactly one error, and no worker's `schedule` is called; so no runnable is executed
for the job: submitting and waiting leaves the shared state store as it was and yields
the failed result. -/
theorem schedule_error_paths (E : Env R) (exec : Execute R) (st : State R) (store : Store)
    (job : Job)
    (hm : st.sched.mutex = false)
    (hw : goLookup st.sched.workers job.jobType = none)
    (hfail : goLookup st.sched.registered job.jobType = none ∨
      ∃ h err, goLookup st.sched.registered job.jobType = some h ∧
        E.start ⟨st.built, h.runnable, h.options⟩ = some err) :
    ∃ e st' seg, schedule E st job = .ok (newResult.sendErr e, st') ∧
      (newResult.sendErr e).state = .failed e ∧
      st'.trace = st.trace ++ seg ∧
      seg.filter Event.isNewResult = [.newResult] ∧
      seg.filter Event.isSendErr = [.sendErr e] ∧
      seg.filter Event.isDelegate = [] ∧
      submitAndWait E exec st store job = .ok (newResult.sendErr e, st', store) := by
  rcases hfail with hh | ⟨h, err, hh, hs⟩
  · have hsch := schedule_noHandler E st job hm hw hh
    refine ⟨noHandlerError E job.jobType, _, _, hsch, rfl,
      by simp only [List.append_assoc]; rfl, ?_, ?_, ?_, ?_⟩
    · cases hws : st.sched.workers <;> cases hrs : st.sched.registered <;>
        simp [lookupWorkerEvents, getHandlerEvents, hws, hrs, List.filter, Event.isNewResult]
    · cases hws : st.sched.workers <;> cases hrs : st.sched.registered <;>
        simp [lookupWorkerEvents, getHandlerEvents, hws, hrs, List.filter, Event.isSendErr]
    · cases hws : st.sched.workers <;> cases hrs : st.sched.registered <;>
        simp [lookupWorkerEvents, getHandlerEvents, hws, hrs, List.filter, Event.isDelegate]
    · simp only [submitAndWait, hsch, bind, Except.bind, List.append_assoc, pure, Except.pure]
      rw [show ∀ a b : Event R, [a, b] = [a] ++ [b] from fun _ _ => rfl,
        ← List.append_assoc (getHandlerEvents st job.jobType),
        ← List.append_assoc (lookupWorkerEvents st job.jobType), delegatedTo_append_sendErr]
      rfl
  · have hsch := schedule_startFailed E st job h err hm hw hh hs
    refine ⟨startError E err job.jobType, _, _, hsch, rfl,
      by simp only [List.append_assoc]; rfl, ?_, ?_, ?_, ?_⟩
    · cases hws : st.sched.workers <;> cases hrs : st.sched.registered <;>
        simp [lookupWorkerEvents, getHandlerEvents, hws, hrs, List.filter, Event.isNewResult]
    · cases hws : st.sched.workers <;> cases hrs : st.sched.registered <;>
        simp [lookupWorkerEvents, getHandlerEvents, hws, hrs, List.filter, Event.isSendErr]
    · cases hws : st.sched.workers <;> cases hrs : st.sched.registered <;>
        simp [lookupWorkerEvents, getHandlerEvents, hws, hrs, List.filter, Event.isDelegate]
    · simp only [submitAndWait, hsch, bind, Except.bind, List.append_assoc, pure, Except.pure]
      rw [show ∀ a b c d : Event R, [a, b, c, d] = [a, b, c] ++ [d] from
        fun _ _ _ _ => rfl,
        ← List.append_assoc (getHandlerEvents st job.jobType),
        ← List.append_assoc (lookupWorkerEvents st job.jobType), delegatedTo_append_sendErr]
      rfl

theorem schedule_error_paths_witness :
    ∃ e st' seg, schedule flakyEnv registeredState demoJob = .ok (newResult.sendErr e, st') ∧
      (newResult.sendErr e).state = .failed e ∧
      st'.trace = registeredState.trace ++ seg ∧
      seg.filter Event.isNewResult = [.newResult] ∧
      seg.filter Event.isSendErr = [.sendErr e] ∧
      seg.filter Event.isDelegate = [] ∧
      submitAndWait flakyEnv echoExecute registeredState [] demoJob =
        .ok (newResult.sendErr e, st', []) :=
  schedule_error_paths flakyEnv echoExecute registeredState [] demoJob rfl rfl
    (Or.inr ⟨⟨7, defaultOpts⟩, .errorf "out of memory", by decide, rfl⟩)

/-- C25: `handle(jt, r, options...)` changes only the registry entry of `jt`: every other
job-type reads the handler it had, the worker table is unchanged, and so is the number
of workers allocated. -/
theorem handle_frame (st : State R) (jt : String) (rn : R) (options : List OptionFn)
    (hm : st.sched.mutex = false) :
    ∃ st', handle st jt rn options = .ok st' ∧
      goLookup st'.sched.registered jt = some ⟨rn, applyOptions options⟩ ∧
      (∀ k, k ≠ jt → goLookup st'.sched.registered k = goLookup st.sched.registered k) ∧
      st'.sched.workers = st.sched.workers ∧ st'.built = st.built := by
  rw [handle_eq st jt rn options hm]
  refine ⟨_, rfl, ?_, ?_, rfl, rfl⟩
  · simp [goLookup, mapGet_mapSet_same]
  · intro k hk
    simp [goLookup_eq_mapGet, goEntries, mapGet_mapSet_other _ _ _ _ hk]

theorem handle_frame_witness :
    ∃ st', handle startedState "resize" 9 [] = .ok st' ∧
      goLookup st'.sched.registered "resize" = some ⟨9, applyOptions []⟩ ∧
      (∀ k, k ≠ "resize" →
        goLookup st'.sched.registered k = goLookup startedState.sched.registered k) ∧
      st'.sched.workers = startedState.sched.workers ∧ st'.built = startedState.built :=
  handle_frame startedState "resize" 9 [] rfl

/-- C26: registering a job-type again after its worker has been created does not change
the routing: when the worker table holds `w` for `jt`, after `handle(jt, r', ...)` the
registry holds `r'`, yet a `schedule` call for `jt` still delegates to `w`, constructs
and starts no worker, and leaves `w` in the worker table. -/
theorem reregister_keeps_worker (E : Env R) (st : State R) (job : Job) (w : worker R)
    (rn : R) (options : List OptionFn)
    (hm : st.sched.mutex = false)
    (hw : goLookup st.sched.workers job.jobType = some w) :
    ∃ st₁, handle st job.jobType rn options = .ok st₁ ∧
      goLookup st₁.sched.registered job.jobType = some ⟨rn, applyOptions options⟩ ∧
      ∃ st₂ seg, schedule E st₁ job = .ok (E.workerSchedule w job, st₂) ∧
        st₂.trace = st₁.trace ++ seg ∧
        seg.filter Event.isDelegate = [.workerSchedule w job] ∧
        (∀ e ∈ seg, e.isConstruct = false ∧ e.isStart = false) ∧
        st₂.built = st.built ∧
        goLookup st₂.sched.workers job.jobType = some w := by
  rw [handle_eq st job.jobType rn options hm]
  refine ⟨_, rfl, by simp [goLookup, mapGet_mapSet_same], ?_⟩
  rw [schedule_existing E
    { sched := { registered := some (mapSet job.jobType ⟨rn, applyOptions options⟩
                   (goEntries st.sched.registered)),
                 workers := st.sched.workers, mutex := false },
      built := st.built,
      trace := st.trace ++ handleEvents st job.jobType ⟨rn, applyOptions options⟩ }
    job w rfl hw]
  refine ⟨_, _, rfl, by simp only [List.append_assoc]; rfl, ?_, ?_, rfl, hw⟩
  · cases hws : st.sched.workers <;>
      simp [lookupWorkerEvents, hws, List.filter, Event.isDelegate]
  · cases hws : st.sched.workers <;>
      simp [lookupWorkerEvents, hws, Event.isConstruct, Event.isStart]

theorem reregister_keeps_worker_witness :
    ∃ st₁, handle startedState demoJob.jobType 9 [fun o => { o with poolSize := 3 }] =
        .ok st₁ ∧
      goLookup st₁.sched.registered demoJob.jobType =
        some ⟨9, applyOptions [fun o => { o with poolSize := 3 }]⟩ ∧
      ∃ st₂ seg, schedule demoEnv st₁ demoJob =
          .ok (demoEnv.workerSchedule ⟨0, 7, defaultOpts⟩ demoJob, st₂) ∧
        st₂.trace = st₁.trace ++ seg ∧
        seg.filter Event.isDelegate = [.workerSchedule ⟨0, 7, defaultOpts⟩ demoJob] ∧
        (∀ e ∈ seg, e.isConstruct = false ∧ e.isStart = false) ∧
        st₂.built = startedState.built ∧
        goLookup st₂.sched.workers demoJob.jobType = some ⟨0, 7, defaultOpts⟩ :=
  reregister_keeps_worker demoEnv startedState demoJob ⟨0, 7, defaultOpts⟩ 9
    [fun o => { o with poolSize := 3 }] rfl (by decide)

/-- C27: in every state reached from `newScheduler` by a sequence of `handle` and
`schedule` calls, every job-type that has a worker in the worker table has a handler in
the registry; and every further sequence of calls runs to its end and keeps every key
of the registry and every key of the worker table. -/
theorem workers_have_handlers (E : Env R) (cs : List (Call R)) :
    ∃ st, runCalls E initState cs = .ok st ∧
      (∀ k, (goLookup st.sched.workers k).isSome → (goLookup st.sched.registered k).isSome) ∧
      ∀ post : List (Call R), ∃ st', runCalls E st post = .ok st' ∧
        (∀ k, (goLookup st'.sched.workers k).isSome →
          (goLookup st'.sched.registered k).isSome) ∧
        (∀ k, (goLookup st.sched.registered k).isSome →
          (goLookup st'.sched.registered k).isSome) ∧
        (∀ k, (goLookup st.sched.workers k).isSome →
          (goLookup st'.sched.workers k).isSome) := by
  obtain ⟨st, hrun, hm, hinv, _, _⟩ := runCalls_keys E cs initState rfl
    (fun k hk => by simp [initState, newScheduler, goLookup, mapGet] at hk)
  refine ⟨st, hrun, hinv, fun post => ?_⟩
  obtain ⟨st', hrun', _, hinv', hreg', hws'⟩ := runCalls_keys E post st hm hinv
  exact ⟨st', hrun', hinv', hreg', hws'⟩

/-- C28: `schedule`, `handle` and `getHandler`, entered with the mutex free, return on
every path with the mutex free; in the trace of each call every `Lock` finds the mutex
free and every `Unlock` finds it held, and `schedule` enters `getHandler` only while the
mutex is free. A caller that runs alone is therefore never stuck on the mutex. -/
theorem lock_balance (E : Env R) (st : State R) (job : Job) (jt : String) (rn : R)
    (options : List OptionFn) (hm : st.sched.mutex = false) :
    (∃ r st' seg, schedule E st job = .ok (r, st') ∧ st'.sched.mutex = false ∧
      st'.trace = st.trace ++ seg ∧ lockDiscipline false seg = some false ∧
      (underLock false seg).filter Event.isGetHandler = []) ∧
    (∃ st' seg, handle st jt rn options = .ok st' ∧ st'.sched.mutex = false ∧
      st'.trace = st.trace ++ seg ∧ lockDiscipline false seg = some false) ∧
    (∃ h st' seg, getHandler st jt = .ok (h, st') ∧ st'.sched.mutex = false ∧
      st'.trace = st.trace ++ seg ∧ lockDiscipline false seg = some false) := by
  refine ⟨?_, ?_, ?_⟩
  · cases hw : goLookup st.sched.workers job.jobType with
    | some w =>
      rw [schedule_existing E st job w hm hw]
      refine ⟨_, _, lookupWorkerEvents st job.jobType ++ [.workerSchedule w job], rfl, hm,
        by simp, ?_, ?_⟩ <;>
      cases hws : st.sched.workers <;>
        simp [lookupWorkerEvents, hws, lockDiscipline, underLock, List.filter,
          Event.isGetHandler]
    | none =>
      cases hh : goLookup st.sched.registered job.jobType with
      | none =>
        rw [schedule_noHandler E st job hm hw hh]
        refine ⟨_, _, _, rfl, rfl, by simp only [List.append_assoc]; rfl, ?_, ?_⟩ <;>
        cases hws : st.sched.workers <;> cases hrs : st.sched.registered <;>
          simp [lookupWorkerEvents, getHandlerEvents, hws, hrs, lockDiscipline, underLock,
            List.filter, Event.isGetHandler]
      | some h =>
        cases hs : E.start ⟨st.built, h.runnable, h.options⟩ with
        | some err =>
          rw [schedule_startFailed E st job h err hm hw hh hs]
          refine ⟨_, _, _, rfl, rfl, by simp only [List.append_assoc]; rfl, ?_, ?_⟩ <;>
          cases hws : st.sched.workers <;> cases hrs : st.sched.registered <;>
            simp [lookupWorkerEvents, getHandlerEvents, hws, hrs, lockDiscipline, underLock,
              List.filter, Event.isGetHandler]
        | none =>
          rw [schedule_created E st job h hm hw hh hs]
          refine ⟨_, _, _, rfl, rfl, by simp only [List.append_assoc]; rfl, ?_, ?_⟩ <;>
          cases hws : st.sched.workers <;> cases hrs : st.sched.registered <;>
            simp [lookupWorkerEvents, getHandlerEvents, hws, hrs, lockDiscipline, underLock,
              List.filter, Event.isGetHandler]
  · rw [handle_eq st jt rn options hm]
    refine ⟨_, _, rfl, rfl, rfl, ?_⟩
    cases hrs : st.sched.registered <;> simp [handleEvents, hrs, lockDiscipline]
  · rw [getHandler_eq st jt hm]
    refine ⟨_, _, _, rfl, hm, rfl, ?_⟩
    cases hrs : st.sched.registered <;> simp [getHandlerEvents, hrs, lockDiscipline]

theorem lock_balance_witness :
    (∃ r st' seg, schedule demoEnv registeredState demoJob = .ok (r, st') ∧
      st'.sched.mutex = false ∧
      st'.trace = registeredState.trace ++ seg ∧ lockDiscipline false seg = some false ∧
      (underLock false seg).filter Event.isGetHandler = []) ∧
    (∃ st' seg, handle registeredState "resize" 9 [] = .ok st' ∧ st'.sched.mutex = false ∧
      st'.trace = registeredState.trace ++ seg ∧ lockDiscipline false seg = some false) ∧
    (∃ h st' seg, getHandler registeredState "resize" = .ok (h, st') ∧
      st'.sched.mutex = false ∧
      st'.trace = registeredState.trace ++ seg ∧ lockDiscipline false seg = some false) :=
  lock_balance demoEnv registeredState demoJob "resize" 9 [] rfl

/-- C29: `getHandler(jt)` returns a handler if and only if `jt` is a key of the registry;
the handler it returns is the entry stored under `jt`, runnable and options; when the
registry is nil or lacks `jt` it returns nil. -/
theorem getHandler_returns_stored (st : State R) (jt : String)
    (hm : st.sched.mutex = false) :
    ∃ h st', getHandler st jt = .ok (h, st') ∧
      h = goLookup st.sched.registered jt ∧
      (h.isSome ↔ jt ∈ mapKeys (goEntries st.sched.registered)) ∧
      (∀ h', h = some h' → (jt, h') ∈ goEntries st.sched.registered) ∧
      (st.sched.registered = none → h = none) ∧
      (jt ∉ mapKeys (goEntries st.sched.registered) → h = none) := by
  rw [getHandler_eq st jt hm]
  have hiff : (goLookup st.sched.registered jt).isSome ↔
      jt ∈ mapKeys (goEntries st.sched.registered) := by
    rw [goLookup_eq_mapGet, mapGet_isSome_iff]
  refine ⟨_, _, rfl, rfl, hiff, ?_, ?_, ?_⟩
  · intro h' hh
    rw [goLookup_eq_mapGet] at hh
    exact mapGet_mem jt h' _ hh
  · intro hnil
    rw [hnil]
    rfl
  · intro hnot
    cases hl : goLookup st.sched.registered jt with
    | none => rfl
    | some h' =>
      rw [hl] at hiff
      exact absurd (hiff.mp rfl) hnot

theorem getHandler_returns_stored_witness :
    ∃ h st', getHandler registeredState "echo" = .ok (h, st') ∧
      h = goLookup registeredState.sched.registered "echo" ∧
      (h.isSome ↔ "echo" ∈ mapKeys (goEntries registeredState.sched.registered)) ∧
      (∀ h', h = some h' → ("echo", h') ∈ goEntries registeredState.sched.registered) ∧
      (registeredState.sched.registered = none → h = none) ∧
      ("echo" ∉ mapKeys (goEntries registeredState.sched.registered) → h = none) :=
  getHandler_returns_stored registeredState "echo" rfl

end Claims

end Hive
